import Mathlib

/-!
Verification of the T4KA3 camera sensor driver
(drivers/staging/media/atomisp/i2c/atomisp-t4ka3.c and t4ka3.h).

The development shallowly embeds the driver's batched register-write
coalescer, the exposure/gain controller, the flip / Bayer-order logic,
the streaming state machine and the nearest-resolution selection, and
proves the stated properties about them.
-/

set_option autoImplicit false

namespace T4ka3

/-! ## Token types and buffer constants (t4ka3.h) -/

def T4KA3_8BIT : Nat := 0x0001
def T4KA3_16BIT : Nat := 0x0002
def T4KA3_TOK_TERM : Nat := 0xf000
def T4KA3_TOK_DELAY : Nat := 0xfe00
def T4KA3_TOK_MASK : Nat := 0xfff0
def T4KA3_MAX_WRITE_BUF_SIZE : Nat := 30

/-- One entry of a register list (struct t4ka3_reg): token type, 16-bit
register address, value. -/
structure t4ka3_reg where
  type : Nat
  sreg : Nat
  val : Nat
deriving DecidableEq

/-- The list terminator entry `{T4KA3_TOK_TERM, 0, 0}`. -/
def t4ka3_term : t4ka3_reg := ⟨T4KA3_TOK_TERM, 0, 0⟩

/-- Coalesce buffer state (struct t4ka3_write_ctrl / t4ka3_write_buffer).
The C `index` field always equals `data.length` here: the C code only ever
reads `buffer.data[0..index)`, so the bytes past `index` left in the C array
by an earlier flush are dead storage and are not modelled. -/
structure t4ka3_write_ctrl where
  addr : Nat
  data : List Nat
deriving DecidableEq

/-- One i2c burst handed to `t4ka3_i2c_write`: the 16-bit register address
(sent big-endian on the wire) followed by the payload bytes. -/
structure Burst where
  addr : Nat
  data : List Nat
deriving DecidableEq

/-- State of the modelled i2c transport: how many write transactions were
attempted so far, every burst handed to the transport in order, and — as
instrumentation for the buffer-bounds claim — the (start index, byte count)
of every append performed into the coalesce buffer's `data` array. -/
structure Transport where
  nwrites : Nat
  bursts : List Burst
  appends : List (Nat × Nat)
deriving DecidableEq

def Transport.init : Transport := ⟨0, [], []⟩

@[simp] lemma Transport_init_nwrites : Transport.init.nwrites = 0 := rfl

@[simp] lemma Transport_init_bursts : Transport.init.bursts = [] := rfl

@[simp] lemma Transport_init_appends : Transport.init.appends = [] := rfl

/-- `t4ka3_i2c_write` with fault injection: transport write number `n`
(1-based) fails with -EIO exactly when `failK = some n`.  The burst is handed
to the transport (the i2c transaction is attempted) in either case. -/
def t4ka3_i2c_write (failK : Option Nat) (tr : Transport) (b : Burst) :
    Transport × Int :=
  (⟨tr.nwrites + 1, tr.bursts ++ [b], tr.appends⟩,
   if failK = some (tr.nwrites + 1) then -5 else 0)

/-- `__t4ka3_flush_reg_array`: nothing to do on an empty buffer, otherwise
send one burst (16-bit address plus the buffered bytes) and reset the index. -/
def __t4ka3_flush_reg_array (failK : Option Nat) (tr : Transport)
    (ctrl : t4ka3_write_ctrl) : Transport × t4ka3_write_ctrl × Int :=
  if ctrl.data.length = 0 then (tr, ctrl, 0)
  else
    let sent := t4ka3_i2c_write failK tr ⟨ctrl.addr, ctrl.data⟩
    (sent.1, ⟨ctrl.addr, []⟩, sent.2)

/-- The value bytes `__t4ka3_buf_reg_array` stores for one entry: one byte
`(u8)next->val` for T4KA3_8BIT, the two big-endian bytes of
`cpu_to_be16((u16)next->val)` for T4KA3_16BIT, and none (-EINVAL) for any
other token type. -/
def t4ka3_val_bytes (next : t4ka3_reg) : Option (List Nat) :=
  if next.type = T4KA3_8BIT then some [next.val % 256]
  else if next.type = T4KA3_16BIT then
    some [next.val / 256 % 256, next.val % 256]
  else none

/-- `__t4ka3_buf_reg_array`: append the entry's value bytes at the current
index (remembering the start address on the first item), then proactively
flush when fewer than two bytes of room remain
(`ctrl->index + sizeof(u16) >= T4KA3_MAX_WRITE_BUF_SIZE`). -/
def __t4ka3_buf_reg_array (failK : Option Nat) (tr : Transport)
    (ctrl : t4ka3_write_ctrl) (next : t4ka3_reg) :
    Transport × t4ka3_write_ctrl × Int :=
  match t4ka3_val_bytes next with
  | none => (tr, ctrl, -22)
  | some bs =>
    let ctrl1 : t4ka3_write_ctrl :=
      if ctrl.data.length = 0 then ⟨next.sreg, bs⟩
      else ⟨ctrl.addr, ctrl.data ++ bs⟩
    let tr1 : Transport :=
      ⟨tr.nwrites, tr.bursts, tr.appends ++ [(ctrl.data.length, bs.length)]⟩
    if ctrl1.data.length + 2 ≥ T4KA3_MAX_WRITE_BUF_SIZE then
      __t4ka3_flush_reg_array failK tr1 ctrl1
    else (tr1, ctrl1, 0)

/-- `__t4ka3_write_reg_is_consecutive`: an empty buffer accepts any address;
otherwise the next entry must start right after the last buffered byte. -/
def __t4ka3_write_reg_is_consecutive (ctrl : t4ka3_write_ctrl)
    (next : t4ka3_reg) : Bool :=
  ctrl.data.length = 0 || ctrl.addr + ctrl.data.length = next.sreg

/-- The loop of `t4ka3_write_reg_array`.  The C loop runs until the first
T4KA3_TOK_TERM entry; reaching the end of the Lean list plays the same role
(a well-formed C register list always carries the terminator).  A delay
entry flushes the pending buffer and sleeps (the sleep is not modelled);
a write entry flushes first if its address is not consecutive, then buffers
its value bytes.  Any failed flush aborts the remaining list. -/
def t4ka3_write_reg_array_loop (failK : Option Nat) (tr : Transport)
    (ctrl : t4ka3_write_ctrl) : List t4ka3_reg → Transport × Int
  | [] =>
    ((__t4ka3_flush_reg_array failK tr ctrl).1,
     (__t4ka3_flush_reg_array failK tr ctrl).2.2)
  | next :: rest =>
    if next.type = T4KA3_TOK_TERM then
      ((__t4ka3_flush_reg_array failK tr ctrl).1,
       (__t4ka3_flush_reg_array failK tr ctrl).2.2)
    else if next.type &&& T4KA3_TOK_MASK = T4KA3_TOK_DELAY then
      if (__t4ka3_flush_reg_array failK tr ctrl).2.2 = 0 then
        t4ka3_write_reg_array_loop failK (__t4ka3_flush_reg_array failK tr ctrl).1
          (__t4ka3_flush_reg_array failK tr ctrl).2.1 rest
      else ((__t4ka3_flush_reg_array failK tr ctrl).1,
            (__t4ka3_flush_reg_array failK tr ctrl).2.2)
    else
      if __t4ka3_write_reg_is_consecutive ctrl next then
        if (__t4ka3_buf_reg_array failK tr ctrl next).2.2 = 0 then
          t4ka3_write_reg_array_loop failK (__t4ka3_buf_reg_array failK tr ctrl next).1
            (__t4ka3_buf_reg_array failK tr ctrl next).2.1 rest
        else ((__t4ka3_buf_reg_array failK tr ctrl next).1,
              (__t4ka3_buf_reg_array failK tr ctrl next).2.2)
      else
        if (__t4ka3_flush_reg_array failK tr ctrl).2.2 = 0 then
          if (__t4ka3_buf_reg_array failK (__t4ka3_flush_reg_array failK tr ctrl).1
                (__t4ka3_flush_reg_array failK tr ctrl).2.1 next).2.2 = 0 then
            t4ka3_write_reg_array_loop failK
              (__t4ka3_buf_reg_array failK (__t4ka3_flush_reg_array failK tr ctrl).1
                (__t4ka3_flush_reg_array failK tr ctrl).2.1 next).1
              (__t4ka3_buf_reg_array failK (__t4ka3_flush_reg_array failK tr ctrl).1
                (__t4ka3_flush_reg_array failK tr ctrl).2.1 next).2.1 rest
          else ((__t4ka3_buf_reg_array failK (__t4ka3_flush_reg_array failK tr ctrl).1
                  (__t4ka3_flush_reg_array failK tr ctrl).2.1 next).1,
                (__t4ka3_buf_reg_array failK (__t4ka3_flush_reg_array failK tr ctrl).1
                  (__t4ka3_flush_reg_array failK tr ctrl).2.1 next).2.2)
        else ((__t4ka3_flush_reg_array failK tr ctrl).1,
              (__t4ka3_flush_reg_array failK tr ctrl).2.2)

/-- `t4ka3_write_reg_array`: run a register list through the coalescer
against a fresh transport, returning the final transport state (the trace
of attempted bursts) and the C return value. -/
def t4ka3_write_reg_array (failK : Option Nat) (reglist : List t4ka3_reg) :
    Transport × Int :=
  t4ka3_write_reg_array_loop failK Transport.init ⟨0, []⟩ reglist

/-! ## Register program predicates -/

/-- Payload size in bytes of a write entry (1 for 8-bit, 2 for 16-bit). -/
def t4ka3_reg.size (r : t4ka3_reg) : Nat :=
  if r.type = T4KA3_8BIT then 1 else 2

/-- The entry is a plain write entry (8-bit or 16-bit). -/
def isWriteReg (r : t4ka3_reg) : Bool :=
  r.type == T4KA3_8BIT || r.type == T4KA3_16BIT

/-- Total number of value bytes of a register program. -/
def progBytes : List t4ka3_reg → Nat
  | [] => 0
  | r :: rs => r.size + progBytes rs

/-- The value bytes of a register program, in list order. -/
def progData : List t4ka3_reg → List Nat
  | [] => []
  | r :: rs => (t4ka3_val_bytes r).getD [] ++ progData rs

/-- The entries occupy consecutive addresses starting at `a`. -/
def chainFromB (a : Nat) : List t4ka3_reg → Bool
  | [] => true
  | r :: rs => r.sreg == a && chainFromB (a + r.size) rs

/-! ## Basic facts about the coalescer primitives -/

lemma isWriteReg_cases {r : t4ka3_reg} (h : isWriteReg r = true) :
    r.type = T4KA3_8BIT ∨ r.type = T4KA3_16BIT := by
  simpa [isWriteReg] using h

lemma val_bytes_of_write {r : t4ka3_reg} (h : isWriteReg r = true) :
    ∃ bs, t4ka3_val_bytes r = some bs ∧ bs.length = r.size ∧
      1 ≤ bs.length ∧ bs.length ≤ 2 := by
  rcases isWriteReg_cases h with h8 | h16
  · exact ⟨[r.val % 256], by simp [t4ka3_val_bytes, h8, t4ka3_reg.size]⟩
  · have hne : r.type ≠ T4KA3_8BIT := by rw [h16]; decide
    refine ⟨[r.val / 256 % 256, r.val % 256], ?_, ?_, by simp, by simp⟩
    · simp [t4ka3_val_bytes, hne, h16]
      decide
    · simp [t4ka3_reg.size, hne]

lemma write_not_term {r : t4ka3_reg} (h : isWriteReg r = true) :
    ¬ r.type = T4KA3_TOK_TERM := by
  rcases isWriteReg_cases h with h' | h' <;> rw [h'] <;> decide

lemma write_not_delay {r : t4ka3_reg} (h : isWriteReg r = true) :
    ¬ r.type &&& T4KA3_TOK_MASK = T4KA3_TOK_DELAY := by
  rcases isWriteReg_cases h with h' | h' <;> rw [h'] <;> decide

lemma size_pos (r : t4ka3_reg) : 1 ≤ r.size := by
  unfold t4ka3_reg.size; split <;> omega

lemma flush_nil (failK : Option Nat) (tr : Transport) (ctrl : t4ka3_write_ctrl)
    (h : ctrl.data = []) :
    __t4ka3_flush_reg_array failK tr ctrl = (tr, ctrl, 0) := by
  simp [__t4ka3_flush_reg_array, h]

lemma flush_some (failK : Option Nat) (tr : Transport) (ctrl : t4ka3_write_ctrl)
    (h : ctrl.data ≠ []) :
    __t4ka3_flush_reg_array failK tr ctrl =
      (⟨tr.nwrites + 1, tr.bursts ++ [⟨ctrl.addr, ctrl.data⟩], tr.appends⟩,
       ⟨ctrl.addr, []⟩, if failK = some (tr.nwrites + 1) then -5 else 0) := by
  simp [__t4ka3_flush_reg_array, t4ka3_i2c_write, List.length_eq_zero, h]

lemma buf_write_fresh (failK : Option Nat) (tr : Transport)
    (ctrl : t4ka3_write_ctrl) {r : t4ka3_reg} {bs : List Nat}
    (hsome : t4ka3_val_bytes r = some bs) (hd : ctrl.data = [])
    (hlen : bs.length ≤ 2) :
    __t4ka3_buf_reg_array failK tr ctrl r =
      (⟨tr.nwrites, tr.bursts, tr.appends ++ [(0, bs.length)]⟩, ⟨r.sreg, bs⟩, 0) := by
  have hno : ¬ bs.length + 2 ≥ T4KA3_MAX_WRITE_BUF_SIZE := by
    simp [T4KA3_MAX_WRITE_BUF_SIZE]; omega
  simp [__t4ka3_buf_reg_array, hsome, hd, hno]

lemma buf_write_small (failK : Option Nat) (tr : Transport)
    (ctrl : t4ka3_write_ctrl) {r : t4ka3_reg} {bs : List Nat}
    (hsome : t4ka3_val_bytes r = some bs) (hd : ctrl.data ≠ [])
    (hsz : ctrl.data.length + bs.length ≤ 27) :
    __t4ka3_buf_reg_array failK tr ctrl r =
      (⟨tr.nwrites, tr.bursts, tr.appends ++ [(ctrl.data.length, bs.length)]⟩,
       ⟨ctrl.addr, ctrl.data ++ bs⟩, 0) := by
  have hd0 : ¬ ctrl.data.length = 0 := by simpa [List.length_eq_zero] using hd
  simp [__t4ka3_buf_reg_array, hsome, hd0, T4KA3_MAX_WRITE_BUF_SIZE]
  intro hcon
  exact absurd hcon (by omega)

lemma buf_write_flush (failK : Option Nat) (tr : Transport)
    (ctrl : t4ka3_write_ctrl) {r : t4ka3_reg} {bs : List Nat}
    (hsome : t4ka3_val_bytes r = some bs) (hd : ctrl.data ≠ [])
    (hsz : 28 ≤ ctrl.data.length + bs.length) :
    __t4ka3_buf_reg_array failK tr ctrl r =
      (⟨tr.nwrites + 1, tr.bursts ++ [⟨ctrl.addr, ctrl.data ++ bs⟩],
        tr.appends ++ [(ctrl.data.length, bs.length)]⟩,
       ⟨ctrl.addr, []⟩, if failK = some (tr.nwrites + 1) then -5 else 0) := by
  have hd0 : ¬ ctrl.data.length = 0 := by simpa [List.length_eq_zero] using hd
  have hda : ctrl.data ++ bs ≠ [] := by
    intro hcon
    exact hd (List.append_eq_nil.mp hcon).1
  simp [__t4ka3_buf_reg_array, hsome, hd0,
    flush_some failK _ ⟨ctrl.addr, ctrl.data ++ bs⟩ hda, T4KA3_MAX_WRITE_BUF_SIZE]
  omega

lemma flush_some_none (tr : Transport) (ctrl : t4ka3_write_ctrl)
    (h : ctrl.data ≠ []) :
    __t4ka3_flush_reg_array none tr ctrl =
      (⟨tr.nwrites + 1, tr.bursts ++ [⟨ctrl.addr, ctrl.data⟩], tr.appends⟩,
       ⟨ctrl.addr, []⟩, 0) := by
  rw [flush_some none tr ctrl h]
  simp

lemma loop_nil (failK : Option Nat) (tr : Transport) (ctrl : t4ka3_write_ctrl) :
    t4ka3_write_reg_array_loop failK tr ctrl [] =
      ((__t4ka3_flush_reg_array failK tr ctrl).1,
       (__t4ka3_flush_reg_array failK tr ctrl).2.2) := rfl

lemma loop_term (failK : Option Nat) (tr : Transport) (ctrl : t4ka3_write_ctrl)
    (s v : Nat) (rest : List t4ka3_reg) :
    t4ka3_write_reg_array_loop failK tr ctrl (⟨T4KA3_TOK_TERM, s, v⟩ :: rest) =
      t4ka3_write_reg_array_loop failK tr ctrl [] := by
  simp [t4ka3_write_reg_array_loop]

/-- Unfolding the loop at a terminator entry. -/
lemma loop_cons_term (failK : Option Nat) (tr : Transport)
    (ctrl : t4ka3_write_ctrl) {q : t4ka3_reg} (rest : List t4ka3_reg)
    (h : q.type = T4KA3_TOK_TERM) :
    t4ka3_write_reg_array_loop failK tr ctrl (q :: rest) =
      t4ka3_write_reg_array_loop failK tr ctrl [] := by
  conv_lhs => rw [t4ka3_write_reg_array_loop]
  rw [if_pos h, loop_nil]

/-- Unfolding the loop at a delay entry. -/
lemma loop_cons_delay (failK : Option Nat) (tr : Transport)
    (ctrl : t4ka3_write_ctrl) {q : t4ka3_reg} (rest : List t4ka3_reg)
    (hterm : ¬ q.type = T4KA3_TOK_TERM)
    (hdelay : q.type &&& T4KA3_TOK_MASK = T4KA3_TOK_DELAY) :
    t4ka3_write_reg_array_loop failK tr ctrl (q :: rest) =
      if (__t4ka3_flush_reg_array failK tr ctrl).2.2 = 0 then
        t4ka3_write_reg_array_loop failK (__t4ka3_flush_reg_array failK tr ctrl).1
          (__t4ka3_flush_reg_array failK tr ctrl).2.1 rest
      else ((__t4ka3_flush_reg_array failK tr ctrl).1,
            (__t4ka3_flush_reg_array failK tr ctrl).2.2) := by
  rw [t4ka3_write_reg_array_loop, if_neg hterm, if_pos hdelay]

/-- Unfolding the loop at a consecutive default (non-term, non-delay) entry. -/
lemma loop_cons_write_consec (failK : Option Nat) (tr : Transport)
    (ctrl : t4ka3_write_ctrl) {r : t4ka3_reg} (rest : List t4ka3_reg)
    (hterm : ¬ r.type = T4KA3_TOK_TERM)
    (hdelay : ¬ r.type &&& T4KA3_TOK_MASK = T4KA3_TOK_DELAY)
    (hc : __t4ka3_write_reg_is_consecutive ctrl r = true) :
    t4ka3_write_reg_array_loop failK tr ctrl (r :: rest) =
      if (__t4ka3_buf_reg_array failK tr ctrl r).2.2 = 0 then
        t4ka3_write_reg_array_loop failK (__t4ka3_buf_reg_array failK tr ctrl r).1
          (__t4ka3_buf_reg_array failK tr ctrl r).2.1 rest
      else ((__t4ka3_buf_reg_array failK tr ctrl r).1,
            (__t4ka3_buf_reg_array failK tr ctrl r).2.2) := by
  rw [t4ka3_write_reg_array_loop]
  rw [if_neg hterm, if_neg hdelay, if_pos hc]

/-- Unfolding the loop at a non-consecutive default entry: flush first. -/
lemma loop_cons_write_gap (failK : Option Nat) (tr : Transport)
    (ctrl : t4ka3_write_ctrl) {r : t4ka3_reg} (rest : List t4ka3_reg)
    (hterm : ¬ r.type = T4KA3_TOK_TERM)
    (hdelay : ¬ r.type &&& T4KA3_TOK_MASK = T4KA3_TOK_DELAY)
    (hc : ¬ __t4ka3_write_reg_is_consecutive ctrl r = true) :
    t4ka3_write_reg_array_loop failK tr ctrl (r :: rest) =
      if (__t4ka3_flush_reg_array failK tr ctrl).2.2 = 0 then
        if (__t4ka3_buf_reg_array failK (__t4ka3_flush_reg_array failK tr ctrl).1
              (__t4ka3_flush_reg_array failK tr ctrl).2.1 r).2.2 = 0 then
          t4ka3_write_reg_array_loop failK
            (__t4ka3_buf_reg_array failK (__t4ka3_flush_reg_array failK tr ctrl).1
              (__t4ka3_flush_reg_array failK tr ctrl).2.1 r).1
            (__t4ka3_buf_reg_array failK (__t4ka3_flush_reg_array failK tr ctrl).1
              (__t4ka3_flush_reg_array failK tr ctrl).2.1 r).2.1 rest
        else ((__t4ka3_buf_reg_array failK (__t4ka3_flush_reg_array failK tr ctrl).1
                (__t4ka3_flush_reg_array failK tr ctrl).2.1 r).1,
              (__t4ka3_buf_reg_array failK (__t4ka3_flush_reg_array failK tr ctrl).1
                (__t4ka3_flush_reg_array failK tr ctrl).2.1 r).2.2)
      else ((__t4ka3_flush_reg_array failK tr ctrl).1,
            (__t4ka3_flush_reg_array failK tr ctrl).2.2) := by
  rw [t4ka3_write_reg_array_loop]
  rw [if_neg hterm, if_neg hdelay, if_neg hc]

/-- A terminator entry makes the loop ignore everything after it, so a list
followed by the terminator behaves exactly like the bare list. -/
lemma loop_append_term (failK : Option Nat) (P : List t4ka3_reg)
    (tail : List t4ka3_reg) : ∀ (tr : Transport) (ctrl : t4ka3_write_ctrl),
    t4ka3_write_reg_array_loop failK tr ctrl (P ++ t4ka3_term :: tail) =
      t4ka3_write_reg_array_loop failK tr ctrl P := by
  induction P with
  | nil =>
    intro tr ctrl
    rw [List.nil_append, t4ka3_term, loop_term]
  | cons q qs ih =>
    intro tr ctrl
    rw [List.cons_append]
    conv_lhs => rw [t4ka3_write_reg_array_loop]
    conv_rhs => rw [t4ka3_write_reg_array_loop]
    by_cases hterm : q.type = T4KA3_TOK_TERM
    · simp only [if_pos hterm]
    · simp only [if_neg hterm]
      by_cases hdelay : q.type &&& T4KA3_TOK_MASK = T4KA3_TOK_DELAY
      · simp only [if_pos hdelay]
        by_cases hr : (__t4ka3_flush_reg_array failK tr ctrl).2.2 = 0
        · simp only [if_pos hr, ih]
        · simp only [if_neg hr]
      · simp only [if_neg hdelay]
        by_cases hc : __t4ka3_write_reg_is_consecutive ctrl q = true
        · simp only [if_pos hc]
          by_cases hr : (__t4ka3_buf_reg_array failK tr ctrl q).2.2 = 0
          · simp only [if_pos hr, ih]
          · simp only [if_neg hr]
        · simp only [if_neg hc]
          by_cases hr : (__t4ka3_flush_reg_array failK tr ctrl).2.2 = 0
          · simp only [if_pos hr]
            by_cases hr2 : (__t4ka3_buf_reg_array failK
                (__t4ka3_flush_reg_array failK tr ctrl).1
                (__t4ka3_flush_reg_array failK tr ctrl).2.1 q).2.2 = 0
            · simp only [if_pos hr2, ih]
            · simp only [if_neg hr2]
          · simp only [if_neg hr]

/-- Running the loop over a contiguous run of write entries that ends the
program, starting from a non-empty buffer that the run extends, sends
exactly one burst: the buffer contents followed by all the run's value
bytes, at the buffer's start address. -/
lemma loop_contig (P : List t4ka3_reg) :
    ∀ (tr : Transport) (ctrl : t4ka3_write_ctrl),
    P.all isWriteReg = true →
    chainFromB (ctrl.addr + ctrl.data.length) P = true →
    ctrl.data ≠ [] →
    ctrl.data.length + progBytes P ≤ 28 →
    (t4ka3_write_reg_array_loop none tr ctrl P).1.bursts
        = tr.bursts ++ [⟨ctrl.addr, ctrl.data ++ progData P⟩] ∧
    (t4ka3_write_reg_array_loop none tr ctrl P).2 = 0 := by
  induction P with
  | nil =>
    intro tr ctrl _ _ hne _
    rw [loop_nil, flush_some none tr ctrl hne]
    simp [progData]
  | cons r rest ih =>
    intro tr ctrl hall hchain hne hbytes
    rw [List.all_cons, Bool.and_eq_true] at hall
    obtain ⟨hw, hrest⟩ := hall
    obtain ⟨bs, hbs, hlen, hb1, hb2⟩ := val_bytes_of_write hw
    rw [chainFromB, Bool.and_eq_true, beq_iff_eq] at hchain
    obtain ⟨hsreg, hchainrest⟩ := hchain
    have hcons : __t4ka3_write_reg_is_consecutive ctrl r = true := by
      simp [__t4ka3_write_reg_is_consecutive, hsreg]
    rw [loop_cons_write_consec none tr ctrl rest (write_not_term hw) (write_not_delay hw) hcons]
    have hbytes' : ctrl.data.length + (r.size + progBytes rest) ≤ 28 := by
      simpa [progBytes] using hbytes
    have hne2 : ctrl.data ++ bs ≠ [] := by
      intro hcon; exact hne (List.append_eq_nil.mp hcon).1
    cases rest with
    | nil =>
      by_cases hfl : 28 ≤ ctrl.data.length + bs.length
      · rw [buf_write_flush none tr ctrl hbs hne hfl]
        simp only [Option.some.injEq, reduceCtorEq, if_true, if_pos rfl]
        rw [loop_nil, flush_nil none _ _ rfl]
        simp [progData, hbs]
      · push_neg at hfl
        rw [buf_write_small none tr ctrl hbs hne (by omega)]
        simp only [if_pos rfl, eq_self_iff_true, if_true]
        rw [loop_nil, flush_some none _ _ hne2]
        simp [progData, hbs]
    | cons r2 rs =>
      have hpos : 1 ≤ progBytes (r2 :: rs) := by
        have := size_pos r2
        simp only [progBytes]
        omega
      have hsmall : ctrl.data.length + bs.length ≤ 27 := by
        rw [hlen]
        omega
      rw [buf_write_small none tr ctrl hbs hne hsmall]
      simp only [if_pos rfl, eq_self_iff_true, if_true]
      have hch : chainFromB (ctrl.addr + (ctrl.data ++ bs).length) (r2 :: rs) = true := by
        have heq : ctrl.addr + (ctrl.data ++ bs).length
            = ctrl.addr + ctrl.data.length + r.size := by
          simp only [List.length_append, hlen]
          omega
        rw [heq]
        exact hchainrest
      have hby2 : (ctrl.data ++ bs).length + progBytes (r2 :: rs) ≤ 28 := by
        simp only [List.length_append, hlen]
        omega
      obtain ⟨hb, hr⟩ := ih ⟨tr.nwrites, tr.bursts, tr.appends ++ [(ctrl.data.length, bs.length)]⟩
        ⟨ctrl.addr, ctrl.data ++ bs⟩ hrest hch hne2 hby2
      refine ⟨?_, hr⟩
      rw [hb]
      simp [progData, hbs]

/-- Running the loop over a contiguous run of write entries in the middle of
the program (strictly below the flush threshold) just extends the buffer,
touching neither the burst trace nor the write counter. -/
lemma loop_seg (A : List t4ka3_reg) :
    ∀ (Q : List t4ka3_reg) (tr : Transport) (ctrl : t4ka3_write_ctrl),
    A.all isWriteReg = true →
    chainFromB (ctrl.addr + ctrl.data.length) A = true →
    ctrl.data ≠ [] →
    ctrl.data.length + progBytes A ≤ 27 →
    ∃ ap : List (Nat × Nat),
      t4ka3_write_reg_array_loop none tr ctrl (A ++ Q) =
        t4ka3_write_reg_array_loop none ⟨tr.nwrites, tr.bursts, ap⟩
          ⟨ctrl.addr, ctrl.data ++ progData A⟩ Q := by
  induction A with
  | nil =>
    intro Q tr ctrl _ _ _ _
    refine ⟨tr.appends, ?_⟩
    simp [progData]
  | cons r rest ih =>
    intro Q tr ctrl hall hchain hne hbytes
    rw [List.all_cons, Bool.and_eq_true] at hall
    obtain ⟨hw, hrest⟩ := hall
    obtain ⟨bs, hbs, hlen, hb1, hb2⟩ := val_bytes_of_write hw
    rw [chainFromB, Bool.and_eq_true, beq_iff_eq] at hchain
    obtain ⟨hsreg, hchainrest⟩ := hchain
    have hcons : __t4ka3_write_reg_is_consecutive ctrl r = true := by
      simp [__t4ka3_write_reg_is_consecutive, hsreg]
    rw [List.cons_append, loop_cons_write_consec none tr ctrl (rest ++ Q) (write_not_term hw) (write_not_delay hw) hcons]
    have hbytes' : ctrl.data.length + (r.size + progBytes rest) ≤ 27 := by
      simpa [progBytes] using hbytes
    have hsmall : ctrl.data.length + bs.length ≤ 27 := by
      have := size_pos r
      rw [hlen]
      omega
    rw [buf_write_small none tr ctrl hbs hne hsmall]
    simp only [if_pos rfl, eq_self_iff_true, if_true]
    have hch : chainFromB (ctrl.addr + (ctrl.data ++ bs).length) rest = true := by
      have heq : ctrl.addr + (ctrl.data ++ bs).length
          = ctrl.addr + ctrl.data.length + r.size := by
        simp only [List.length_append, hlen]
        omega
      rw [heq]
      exact hchainrest
    have hne2 : ctrl.data ++ bs ≠ [] := by
      intro hcon; exact hne (List.append_eq_nil.mp hcon).1
    have hby2 : (ctrl.data ++ bs).length + progBytes rest ≤ 27 := by
      simp only [List.length_append, hlen]
      omega
    obtain ⟨ap, hap⟩ := ih Q ⟨tr.nwrites, tr.bursts, tr.appends ++ [(ctrl.data.length, bs.length)]⟩
      ⟨ctrl.addr, ctrl.data ++ bs⟩ hrest hch hne2 hby2
    refine ⟨ap, ?_⟩
    rw [hap]
    simp [progData, hbs]

lemma progData_length (P : List t4ka3_reg) (h : P.all isWriteReg = true) :
    (progData P).length = progBytes P := by
  induction P with
  | nil => simp [progData, progBytes]
  | cons r rs ih =>
    rw [List.all_cons, Bool.and_eq_true] at h
    obtain ⟨hw, hrs⟩ := h
    obtain ⟨bs, hbs, hlen, _, _⟩ := val_bytes_of_write hw
    simp only [progData, progBytes, hbs, Option.getD_some, List.length_append,
      ih hrs, hlen]

lemma progBytes_append (X Y : List t4ka3_reg) :
    progBytes (X ++ Y) = progBytes X + progBytes Y := by
  induction X with
  | nil => simp [progBytes]
  | cons r rs ih =>
    show r.size + progBytes (rs ++ Y) = progBytes (r :: rs) + progBytes Y
    rw [ih, progBytes]
    omega

/-- Claim C1: a register program of write entries with consecutive addresses
and at most MAX_BUFFER-2 = 28 value bytes, terminated by the terminator
token, is sent as exactly one burst carrying the first entry's address and
all value bytes in order; the same program with a single address gap between
two adjacent entries is sent as exactly two bursts, split at the gap. -/
theorem C1_coalesce_single_burst_and_gap_split :
    (∀ (r : t4ka3_reg) (rest : List t4ka3_reg),
      (r :: rest).all isWriteReg = true →
      chainFromB r.sreg (r :: rest) = true →
      progBytes (r :: rest) ≤ 28 →
      (t4ka3_write_reg_array none ((r :: rest) ++ [t4ka3_term])).1.bursts
          = [⟨r.sreg, progData (r :: rest)⟩] ∧
      (t4ka3_write_reg_array none ((r :: rest) ++ [t4ka3_term])).2 = 0)
  ∧ (∀ (a : t4ka3_reg) (ra : List t4ka3_reg) (b : t4ka3_reg) (rb : List t4ka3_reg),
      ((a :: ra) ++ b :: rb).all isWriteReg = true →
      chainFromB a.sreg (a :: ra) = true →
      chainFromB b.sreg (b :: rb) = true →
      b.sreg ≠ a.sreg + progBytes (a :: ra) →
      progBytes ((a :: ra) ++ b :: rb) ≤ 28 →
      (t4ka3_write_reg_array none (((a :: ra) ++ b :: rb) ++ [t4ka3_term])).1.bursts
          = [⟨a.sreg, progData (a :: ra)⟩, ⟨b.sreg, progData (b :: rb)⟩] ∧
      (t4ka3_write_reg_array none (((a :: ra) ++ b :: rb) ++ [t4ka3_term])).2 = 0) := by
  constructor
  · intro r rest hall hchain hbytes
    rw [t4ka3_write_reg_array, loop_append_term]
    rw [List.all_cons, Bool.and_eq_true] at hall
    obtain ⟨hw, hrest⟩ := hall
    obtain ⟨bs, hbs, hlen, hb1, hb2⟩ := val_bytes_of_write hw
    rw [chainFromB, Bool.and_eq_true, beq_iff_eq] at hchain
    obtain ⟨_, hchainrest⟩ := hchain
    have hcons : __t4ka3_write_reg_is_consecutive ⟨0, []⟩ r = true := by
      simp [__t4ka3_write_reg_is_consecutive]
    rw [loop_cons_write_consec none Transport.init ⟨0, []⟩ rest (write_not_term hw) (write_not_delay hw) hcons]
    rw [buf_write_fresh none Transport.init ⟨0, []⟩ hbs rfl hb2]
    simp only [if_pos rfl, eq_self_iff_true, if_true]
    have hbne : bs ≠ [] := by
      intro hcon; rw [hcon] at hb1; simp at hb1
    have hch : chainFromB ((⟨r.sreg, bs⟩ : t4ka3_write_ctrl).addr
        + (⟨r.sreg, bs⟩ : t4ka3_write_ctrl).data.length) rest = true := by
      simpa [hlen] using hchainrest
    have hby : (⟨r.sreg, bs⟩ : t4ka3_write_ctrl).data.length + progBytes rest ≤ 28 := by
      simp only
      rw [hlen]
      simpa [progBytes] using hbytes
    obtain ⟨hb, hr⟩ := loop_contig rest
      ⟨Transport.init.nwrites, Transport.init.bursts,
       Transport.init.appends ++ [(0, bs.length)]⟩ ⟨r.sreg, bs⟩ hrest hch hbne hby
    refine ⟨?_, hr⟩
    rw [hb]
    simp [progData, hbs, Transport.init]
  · intro a ra b rb hall hchA hchB hgap hbytes
    rw [t4ka3_write_reg_array, loop_append_term, List.cons_append]
    have hallA : (a :: ra).all isWriteReg = true := by
      rw [List.all_append, Bool.and_eq_true] at hall
      exact hall.1
    have hallB : (b :: rb).all isWriteReg = true := by
      rw [List.all_append, Bool.and_eq_true] at hall
      exact hall.2
    rw [List.all_cons, Bool.and_eq_true] at hallA hallB
    obtain ⟨hwa, hra⟩ := hallA
    obtain ⟨hwb, hrb⟩ := hallB
    obtain ⟨bsa, hbsa, hlena, hba1, hba2⟩ := val_bytes_of_write hwa
    obtain ⟨bsb, hbsb, hlenb, hbb1, hbb2⟩ := val_bytes_of_write hwb
    rw [chainFromB, Bool.and_eq_true, beq_iff_eq] at hchA hchB
    obtain ⟨_, hchra⟩ := hchA
    obtain ⟨_, hchrb⟩ := hchB
    have hbytes' : progBytes (a :: ra) + progBytes (b :: rb) ≤ 28 := by
      rw [← progBytes_append]
      exact hbytes
    have hposA : 1 ≤ progBytes (a :: ra) := by
      have := size_pos a
      simp only [progBytes]
      omega
    have hposB : 1 ≤ progBytes (b :: rb) := by
      have := size_pos b
      simp only [progBytes]
      omega
    have hbneA : bsa ≠ [] := by
      intro hcon; rw [hcon] at hba1; simp at hba1
    -- first entry of A starts a fresh buffer
    have hcons : __t4ka3_write_reg_is_consecutive ⟨0, []⟩ a = true := by
      simp [__t4ka3_write_reg_is_consecutive]
    rw [loop_cons_write_consec none Transport.init ⟨0, []⟩ (ra ++ b :: rb) (write_not_term hwa) (write_not_delay hwa) hcons]
    rw [buf_write_fresh none Transport.init ⟨0, []⟩ hbsa rfl hba2]
    simp only [if_pos rfl, eq_self_iff_true, if_true]
    -- the rest of A only extends the buffer
    have hchseg : chainFromB ((⟨a.sreg, bsa⟩ : t4ka3_write_ctrl).addr
        + (⟨a.sreg, bsa⟩ : t4ka3_write_ctrl).data.length) ra = true := by
      simpa [hlena] using hchra
    have hAsz : progBytes (a :: ra) = a.size + progBytes ra := rfl
    have hbyseg : (⟨a.sreg, bsa⟩ : t4ka3_write_ctrl).data.length + progBytes ra ≤ 27 := by
      simp only
      rw [hlena]
      omega
    obtain ⟨ap, hap⟩ := loop_seg ra (b :: rb)
      ⟨Transport.init.nwrites, Transport.init.bursts,
       Transport.init.appends ++ [(0, bsa.length)]⟩
      ⟨a.sreg, bsa⟩ hra hchseg hbneA hbyseg
    rw [hap]
    -- the buffer now holds all of A's bytes; B's first address is a gap
    have hlenA : (bsa ++ progData ra).length = progBytes (a :: ra) := by
      rw [List.length_append, hlena, progData_length ra hra]
      rfl
    have hdneA : bsa ++ progData ra ≠ [] := by
      intro hcon; exact hbneA (List.append_eq_nil.mp hcon).1
    have hnegap : ¬ __t4ka3_write_reg_is_consecutive
        ⟨a.sreg, bsa ++ progData ra⟩ b = true := by
      simp only [__t4ka3_write_reg_is_consecutive, Bool.or_eq_true,
        decide_eq_true_eq, not_or]
      refine ⟨?_, ?_⟩
      · simpa [List.length_eq_zero] using hdneA
      · simp only [hlenA]
        intro hcon
        exact hgap hcon.symm
    rw [loop_cons_write_gap none _ _ rb (write_not_term hwb) (write_not_delay hwb) hnegap]
    rw [flush_some_none _ ⟨a.sreg, bsa ++ progData ra⟩ hdneA]
    simp only [if_pos rfl, eq_self_iff_true, if_true]
    rw [buf_write_fresh none _ ⟨a.sreg, []⟩ hbsb rfl hbb2]
    simp only [if_pos rfl, eq_self_iff_true, if_true]
    -- and B runs contiguously to the end
    have hbneB : bsb ≠ [] := by
      intro hcon; rw [hcon] at hbb1; simp at hbb1
    have hchB2 : chainFromB ((⟨b.sreg, bsb⟩ : t4ka3_write_ctrl).addr
        + (⟨b.sreg, bsb⟩ : t4ka3_write_ctrl).data.length) rb = true := by
      simpa [hlenb] using hchrb
    have hBsz : progBytes (b :: rb) = b.size + progBytes rb := rfl
    have hbyB : (⟨b.sreg, bsb⟩ : t4ka3_write_ctrl).data.length + progBytes rb ≤ 28 := by
      simp only
      rw [hlenb]
      omega
    obtain ⟨hbB, hrB⟩ := loop_contig rb _ ⟨b.sreg, bsb⟩ hrb hchB2 hbneB hbyB
    refine ⟨?_, hrB⟩
    rw [hbB]
    simp [progData, hbsa, hbsb, Transport.init]

/-- Witness for C1: a two-entry contiguous program is sent as one burst, and
a two-entry program with a gap as two bursts. -/
theorem C1_coalesce_single_burst_and_gap_split_witness :
    ((t4ka3_write_reg_array none
        ((⟨T4KA3_8BIT, 0x100, 0xAA⟩ :: [⟨T4KA3_16BIT, 0x101, 0x1234⟩])
          ++ [t4ka3_term])).1.bursts
        = [⟨0x100, [0xAA, 0x12, 0x34]⟩] ∧
      (t4ka3_write_reg_array none
        ((⟨T4KA3_8BIT, 0x100, 0xAA⟩ :: [⟨T4KA3_16BIT, 0x101, 0x1234⟩])
          ++ [t4ka3_term])).2 = 0) ∧
    ((t4ka3_write_reg_array none
        (((⟨T4KA3_8BIT, 0x100, 0x11⟩ :: []) ++ ⟨T4KA3_8BIT, 0x200, 0x22⟩ :: [])
          ++ [t4ka3_term])).1.bursts
        = [⟨0x100, [0x11]⟩, ⟨0x200, [0x22]⟩] ∧
      (t4ka3_write_reg_array none
        (((⟨T4KA3_8BIT, 0x100, 0x11⟩ :: []) ++ ⟨T4KA3_8BIT, 0x200, 0x22⟩ :: [])
          ++ [t4ka3_term])).2 = 0) :=
  ⟨C1_coalesce_single_burst_and_gap_split.1 ⟨T4KA3_8BIT, 0x100, 0xAA⟩
      [⟨T4KA3_16BIT, 0x101, 0x1234⟩] (by decide) (by decide) (by decide),
   C1_coalesce_single_burst_and_gap_split.2 ⟨T4KA3_8BIT, 0x100, 0x11⟩ []
      ⟨T4KA3_8BIT, 0x200, 0x22⟩ [] (by decide) (by decide) (by decide)
      (by decide) (by decide)⟩

/-! ## Fault injection: frame lemmas for the pure (fault-free) run -/

lemma val_bytes_length' {r : t4ka3_reg} {bs : List Nat}
    (h : t4ka3_val_bytes r = some bs) : 1 ≤ bs.length ∧ bs.length ≤ 2 := by
  by_cases h8 : r.type = T4KA3_8BIT
  · rw [t4ka3_val_bytes, if_pos h8] at h
    injection h with h
    subst h
    simp
  · by_cases h16 : r.type = T4KA3_16BIT
    · rw [t4ka3_val_bytes, if_neg h8, if_pos h16] at h
      injection h with h
      subst h
      simp
    · rw [t4ka3_val_bytes, if_neg h8, if_neg h16] at h
      exact Option.noConfusion h

lemma buf_invalid (failK : Option Nat) (tr : Transport)
    (ctrl : t4ka3_write_ctrl) {r : t4ka3_reg}
    (h : t4ka3_val_bytes r = none) :
    __t4ka3_buf_reg_array failK tr ctrl r = (tr, ctrl, -22) := by
  simp [__t4ka3_buf_reg_array, h]

/-- The fault-free flush only appends to the transport trace: its effect is
the same from any starting transport. -/
lemma flush_none_frame (tr : Transport) (ctrl : t4ka3_write_ctrl) :
    (__t4ka3_flush_reg_array none tr ctrl).1.bursts
      = tr.bursts ++ (__t4ka3_flush_reg_array none Transport.init ctrl).1.bursts ∧
    (__t4ka3_flush_reg_array none tr ctrl).1.nwrites
      = tr.nwrites + (__t4ka3_flush_reg_array none Transport.init ctrl).1.nwrites ∧
    (__t4ka3_flush_reg_array none tr ctrl).2.1
      = (__t4ka3_flush_reg_array none Transport.init ctrl).2.1 ∧
    (__t4ka3_flush_reg_array none tr ctrl).2.2
      = (__t4ka3_flush_reg_array none Transport.init ctrl).2.2 := by
  by_cases h : ctrl.data = []
  · rw [flush_nil none tr ctrl h, flush_nil none Transport.init ctrl h]
    simp [Transport.init]
  · rw [flush_some_none tr ctrl h, flush_some_none Transport.init ctrl h]
    simp [Transport.init]

/-- The fault-free buffer step only appends to the transport trace. -/
lemma buf_none_frame (tr : Transport) (ctrl : t4ka3_write_ctrl) (r : t4ka3_reg) :
    (__t4ka3_buf_reg_array none tr ctrl r).1.bursts
      = tr.bursts ++ (__t4ka3_buf_reg_array none Transport.init ctrl r).1.bursts ∧
    (__t4ka3_buf_reg_array none tr ctrl r).1.nwrites
      = tr.nwrites + (__t4ka3_buf_reg_array none Transport.init ctrl r).1.nwrites ∧
    (__t4ka3_buf_reg_array none tr ctrl r).2.1
      = (__t4ka3_buf_reg_array none Transport.init ctrl r).2.1 ∧
    (__t4ka3_buf_reg_array none tr ctrl r).2.2
      = (__t4ka3_buf_reg_array none Transport.init ctrl r).2.2 := by
  cases hv : t4ka3_val_bytes r with
  | none =>
    rw [buf_invalid none tr ctrl hv, buf_invalid none Transport.init ctrl hv]
    simp [Transport.init]
  | some bs =>
    obtain ⟨hb1, hb2⟩ := val_bytes_length' hv
    by_cases hd : ctrl.data = []
    · rw [buf_write_fresh none tr ctrl hv hd hb2,
        buf_write_fresh none Transport.init ctrl hv hd hb2]
      simp [Transport.init]
    · by_cases hth : 28 ≤ ctrl.data.length + bs.length
      · rw [buf_write_flush none tr ctrl hv hd hth,
          buf_write_flush none Transport.init ctrl hv hd hth]
        simp [Transport.init]
      · push_neg at hth
        rw [buf_write_small none tr ctrl hv hd (by omega),
          buf_write_small none Transport.init ctrl hv hd (by omega)]
        simp [Transport.init]

/-- The fault-free loop only appends to the transport trace. -/
lemma loop_none_frame (P : List t4ka3_reg) :
    ∀ (tr : Transport) (ctrl : t4ka3_write_ctrl),
    (t4ka3_write_reg_array_loop none tr ctrl P).1.bursts
        = tr.bursts ++ (t4ka3_write_reg_array_loop none Transport.init ctrl P).1.bursts ∧
    (t4ka3_write_reg_array_loop none tr ctrl P).1.nwrites
        = tr.nwrites + (t4ka3_write_reg_array_loop none Transport.init ctrl P).1.nwrites ∧
    (t4ka3_write_reg_array_loop none tr ctrl P).2
        = (t4ka3_write_reg_array_loop none Transport.init ctrl P).2 := by
  induction P with
  | nil =>
    intro tr ctrl
    rw [loop_nil, loop_nil]
    obtain ⟨h1, h2, _, h4⟩ := flush_none_frame tr ctrl
    exact ⟨h1, h2, h4⟩
  | cons q rest ih =>
    intro tr ctrl
    by_cases hterm : q.type = T4KA3_TOK_TERM
    · rw [loop_cons_term none tr ctrl rest hterm,
        loop_cons_term none Transport.init ctrl rest hterm, loop_nil, loop_nil]
      obtain ⟨h1, h2, _, h4⟩ := flush_none_frame tr ctrl
      exact ⟨h1, h2, h4⟩
    · by_cases hdelay : q.type &&& T4KA3_TOK_MASK = T4KA3_TOK_DELAY
      · rw [loop_cons_delay none tr ctrl rest hterm hdelay,
          loop_cons_delay none Transport.init ctrl rest hterm hdelay]
        obtain ⟨f1, f2, f3, f4⟩ := flush_none_frame tr ctrl
        rw [f3, f4]
        by_cases hr : (__t4ka3_flush_reg_array none Transport.init ctrl).2.2 = 0
        · rw [if_pos hr, if_pos hr]
          obtain ⟨i1, i2, i3⟩ := ih (__t4ka3_flush_reg_array none tr ctrl).1
            (__t4ka3_flush_reg_array none Transport.init ctrl).2.1
          obtain ⟨j1, j2, j3⟩ := ih (__t4ka3_flush_reg_array none Transport.init ctrl).1
            (__t4ka3_flush_reg_array none Transport.init ctrl).2.1
          refine ⟨?_, ?_, ?_⟩
          · rw [i1, j1, f1, List.append_assoc]
          · rw [i2, j2, f2]
            omega
          · rw [i3, j3]
        · rw [if_neg hr, if_neg hr]
          exact ⟨f1, f2, rfl⟩
      · by_cases hc : __t4ka3_write_reg_is_consecutive ctrl q = true
        · rw [loop_cons_write_consec none tr ctrl rest hterm hdelay hc,
            loop_cons_write_consec none Transport.init ctrl rest hterm hdelay hc]
          obtain ⟨f1, f2, f3, f4⟩ := buf_none_frame tr ctrl q
          rw [f3, f4]
          by_cases hr : (__t4ka3_buf_reg_array none Transport.init ctrl q).2.2 = 0
          · rw [if_pos hr, if_pos hr]
            obtain ⟨i1, i2, i3⟩ := ih (__t4ka3_buf_reg_array none tr ctrl q).1
              (__t4ka3_buf_reg_array none Transport.init ctrl q).2.1
            obtain ⟨j1, j2, j3⟩ := ih (__t4ka3_buf_reg_array none Transport.init ctrl q).1
              (__t4ka3_buf_reg_array none Transport.init ctrl q).2.1
            refine ⟨?_, ?_, ?_⟩
            · rw [i1, j1, f1, List.append_assoc]
            · rw [i2, j2, f2]
              omega
            · rw [i3, j3]
          · rw [if_neg hr, if_neg hr]
            exact ⟨f1, f2, rfl⟩
        · rw [loop_cons_write_gap none tr ctrl rest hterm hdelay hc,
            loop_cons_write_gap none Transport.init ctrl rest hterm hdelay hc]
          obtain ⟨f1, f2, f3, f4⟩ := flush_none_frame tr ctrl
          rw [f3, f4]
          by_cases hr : (__t4ka3_flush_reg_array none Transport.init ctrl).2.2 = 0
          · rw [if_pos hr, if_pos hr]
            obtain ⟨g1, g2, g3, g4⟩ := buf_none_frame
              (__t4ka3_flush_reg_array none tr ctrl).1
              (__t4ka3_flush_reg_array none Transport.init ctrl).2.1 q
            obtain ⟨k1, k2, k3, k4⟩ := buf_none_frame
              (__t4ka3_flush_reg_array none Transport.init ctrl).1
              (__t4ka3_flush_reg_array none Transport.init ctrl).2.1 q
            rw [g3, g4, k3, k4]
            by_cases hr2 : (__t4ka3_buf_reg_array none Transport.init
                (__t4ka3_flush_reg_array none Transport.init ctrl).2.1 q).2.2 = 0
            · rw [if_pos hr2, if_pos hr2]
              obtain ⟨i1, i2, i3⟩ := ih
                (__t4ka3_buf_reg_array none (__t4ka3_flush_reg_array none tr ctrl).1
                  (__t4ka3_flush_reg_array none Transport.init ctrl).2.1 q).1
                (__t4ka3_buf_reg_array none Transport.init
                  (__t4ka3_flush_reg_array none Transport.init ctrl).2.1 q).2.1
              obtain ⟨j1, j2, j3⟩ := ih
                (__t4ka3_buf_reg_array none
                  (__t4ka3_flush_reg_array none Transport.init ctrl).1
                  (__t4ka3_flush_reg_array none Transport.init ctrl).2.1 q).1
                (__t4ka3_buf_reg_array none Transport.init
                  (__t4ka3_flush_reg_array none Transport.init ctrl).2.1 q).2.1
              refine ⟨?_, ?_, ?_⟩
              · rw [i1, j1, g1, k1, f1]
                simp [List.append_assoc]
              · rw [i2, j2, g2, k2, f2]
                omega
              · rw [i3, j3]
            · rw [if_neg hr2, if_neg hr2]
              refine ⟨?_, ?_, rfl⟩
              · rw [g1, k1, f1]
                simp [List.append_assoc]
              · rw [g2, k2, f2]
                omega
          · rw [if_neg hr, if_neg hr]
            exact ⟨f1, f2, rfl⟩

/-! ## Fault injection: the faulty run is a prefix of the pure run -/

lemma take_cons_sub {α : Type} (b : α) (l : List α) (k n : Nat) (h : n < k) :
    (b :: l).take (k - n) = b :: l.take (k - (n + 1)) := by
  have hk : k - n = (k - (n + 1)) + 1 := by omega
  rw [hk, List.take_succ_cons]

/-- Fault lemma, final-flush case: the program is exhausted, only the final
flush can perform the k-th write. -/
lemma loop_fault_nil (tr : Transport) (ctrl : t4ka3_write_ctrl) (k : Nat)
    (hlt : tr.nwrites < k)
    (hle : k ≤ tr.nwrites
      + (t4ka3_write_reg_array_loop none Transport.init ctrl []).1.nwrites) :
    (t4ka3_write_reg_array_loop (some k) tr ctrl []).2 = -5 ∧
    (t4ka3_write_reg_array_loop (some k) tr ctrl []).1.bursts
      = tr.bursts ++ ((t4ka3_write_reg_array_loop none Transport.init ctrl
          []).1.bursts).take (k - tr.nwrites) := by
  by_cases hd : ctrl.data = []
  · rw [loop_nil, flush_nil none Transport.init ctrl hd] at hle
    simp [Transport.init] at hle
    exact absurd hle (by omega)
  · have hk : k = tr.nwrites + 1 := by
      rw [loop_nil, flush_some_none Transport.init ctrl hd] at hle
      simp [Transport.init] at hle
      omega
    rw [loop_nil, flush_some (some k) tr ctrl hd,
      loop_nil, flush_some_none Transport.init ctrl hd]
    subst hk
    simp [Transport.init]

/-- Fault lemma: if the fault-free run of the loop performs at least
`k - tr.nwrites` more transport writes, then the run with a fault injected at
write `k` returns -EIO and its burst trace extends `tr` by exactly the first
`k - tr.nwrites` bursts of the fault-free run. -/
lemma loop_fault (P : List t4ka3_reg) :
    ∀ (tr : Transport) (ctrl : t4ka3_write_ctrl) (k : Nat),
    tr.nwrites < k →
    k ≤ tr.nwrites
      + (t4ka3_write_reg_array_loop none Transport.init ctrl P).1.nwrites →
    (t4ka3_write_reg_array_loop (some k) tr ctrl P).2 = -5 ∧
    (t4ka3_write_reg_array_loop (some k) tr ctrl P).1.bursts
      = tr.bursts ++ ((t4ka3_write_reg_array_loop none Transport.init ctrl
          P).1.bursts).take (k - tr.nwrites) := by
  induction P with
  | nil =>
    intro tr ctrl k hlt hle
    exact loop_fault_nil tr ctrl k hlt hle
  | cons q rest ih =>
    intro tr ctrl k hlt hle
    by_cases hterm : q.type = T4KA3_TOK_TERM
    · rw [loop_cons_term none Transport.init ctrl rest hterm] at hle
      rw [loop_cons_term (some k) tr ctrl rest hterm,
        loop_cons_term none Transport.init ctrl rest hterm]
      exact loop_fault_nil tr ctrl k hlt hle
    · by_cases hdelay : q.type &&& T4KA3_TOK_MASK = T4KA3_TOK_DELAY
      · by_cases hd : ctrl.data = []
        · -- delay entry, empty buffer: the flush is a no-op
          have hpstep : t4ka3_write_reg_array_loop none Transport.init ctrl (q :: rest)
              = t4ka3_write_reg_array_loop none Transport.init ctrl rest := by
            rw [loop_cons_delay none Transport.init ctrl rest hterm hdelay,
              flush_nil none Transport.init ctrl hd]
            simp only [if_pos rfl, eq_self_iff_true, if_true]
          have hfstep : t4ka3_write_reg_array_loop (some k) tr ctrl (q :: rest)
              = t4ka3_write_reg_array_loop (some k) tr ctrl rest := by
            rw [loop_cons_delay (some k) tr ctrl rest hterm hdelay,
              flush_nil (some k) tr ctrl hd]
            simp only [if_pos rfl, eq_self_iff_true, if_true]
          rw [hpstep] at hle
          rw [hfstep, hpstep]
          exact ih tr ctrl k hlt hle
        · -- delay entry, non-empty buffer: the flush performs a write
          have hpstep : t4ka3_write_reg_array_loop none Transport.init ctrl (q :: rest)
              = t4ka3_write_reg_array_loop none
                  ⟨Transport.init.nwrites + 1,
                   Transport.init.bursts ++ [⟨ctrl.addr, ctrl.data⟩],
                   Transport.init.appends⟩ ⟨ctrl.addr, []⟩ rest := by
            rw [loop_cons_delay none Transport.init ctrl rest hterm hdelay,
              flush_some_none Transport.init ctrl hd]
            simp only [if_pos rfl, eq_self_iff_true, if_true]
          obtain ⟨fb, fn, fr⟩ := loop_none_frame rest
            ⟨Transport.init.nwrites + 1,
             Transport.init.bursts ++ [⟨ctrl.addr, ctrl.data⟩],
             Transport.init.appends⟩ ⟨ctrl.addr, []⟩
          rw [hpstep, fn] at hle
          simp at hle
          rw [hpstep, fb]
          simp only [Transport_init_nwrites, Transport_init_bursts, Transport_init_appends, List.nil_append, List.singleton_append]
          by_cases hk : k = tr.nwrites + 1
          · have hflt : (__t4ka3_flush_reg_array (some k) tr ctrl).2.2 = -5 := by
              rw [flush_some (some k) tr ctrl hd]
              simp [hk]
            have hfbu : (__t4ka3_flush_reg_array (some k) tr ctrl).1.bursts
                = tr.bursts ++ [⟨ctrl.addr, ctrl.data⟩] := by
              rw [flush_some (some k) tr ctrl hd]
            have hnz : ¬ (__t4ka3_flush_reg_array (some k) tr ctrl).2.2 = 0 := by
              rw [hflt]
              decide
            rw [loop_cons_delay (some k) tr ctrl rest hterm hdelay, if_neg hnz]
            have hk1 : k - tr.nwrites = 1 := by omega
            refine ⟨hflt, ?_⟩
            rw [hfbu, hk1]
            simp
          · have hnf : ¬ ((some k : Option Nat) = some (tr.nwrites + 1)) := by
              simp only [Option.some.injEq]
              omega
            have hfok : (__t4ka3_flush_reg_array (some k) tr ctrl).2.2 = 0 := by
              rw [flush_some (some k) tr ctrl hd, if_neg hnf]
            have hktr : (__t4ka3_flush_reg_array (some k) tr ctrl).1
                = ⟨tr.nwrites + 1, tr.bursts ++ [⟨ctrl.addr, ctrl.data⟩],
                   tr.appends⟩ := by
              rw [flush_some (some k) tr ctrl hd]
            have hkc : (__t4ka3_flush_reg_array (some k) tr ctrl).2.1
                = ⟨ctrl.addr, []⟩ := by
              rw [flush_some (some k) tr ctrl hd]
            rw [loop_cons_delay (some k) tr ctrl rest hterm hdelay, if_pos hfok,
              hktr, hkc]
            obtain ⟨ri, bi⟩ := ih
              ⟨tr.nwrites + 1, tr.bursts ++ [⟨ctrl.addr, ctrl.data⟩], tr.appends⟩
              ⟨ctrl.addr, []⟩ k (by simp; omega) (by simp; omega)
            refine ⟨ri, ?_⟩
            rw [bi, take_cons_sub _ _ k tr.nwrites hlt]
            simp
      · by_cases hc : __t4ka3_write_reg_is_consecutive ctrl q = true
        · -- consecutive entry: buffer it
          cases hv : t4ka3_val_bytes q with
          | none =>
            -- invalid token: both runs stop with -EINVAL before any write
            have hpw : (t4ka3_write_reg_array_loop none Transport.init ctrl
                (q :: rest)).1.nwrites = Transport.init.nwrites := by
              rw [loop_cons_write_consec none Transport.init ctrl rest hterm hdelay hc,
                buf_invalid none Transport.init ctrl hv]
              norm_num
            rw [hpw] at hle
            simp at hle
            exact absurd hle (by omega)
          | some bs =>
            obtain ⟨hb1, hb2⟩ := val_bytes_length' hv
            by_cases hd : ctrl.data = []
            · -- fresh buffer: no write happens at this step
              have hpstep : t4ka3_write_reg_array_loop none Transport.init ctrl (q :: rest)
                  = t4ka3_write_reg_array_loop none
                      ⟨Transport.init.nwrites, Transport.init.bursts,
                       Transport.init.appends ++ [(0, bs.length)]⟩ ⟨q.sreg, bs⟩ rest := by
                rw [loop_cons_write_consec none Transport.init ctrl rest hterm hdelay hc,
                  buf_write_fresh none Transport.init ctrl hv hd hb2]
                simp only [if_pos rfl, eq_self_iff_true, if_true]
              have hfstep : t4ka3_write_reg_array_loop (some k) tr ctrl (q :: rest)
                  = t4ka3_write_reg_array_loop (some k)
                      ⟨tr.nwrites, tr.bursts, tr.appends ++ [(0, bs.length)]⟩
                      ⟨q.sreg, bs⟩ rest := by
                rw [loop_cons_write_consec (some k) tr ctrl rest hterm hdelay hc,
                  buf_write_fresh (some k) tr ctrl hv hd hb2]
                simp only [if_pos rfl, eq_self_iff_true, if_true]
              obtain ⟨fb, fn, fr⟩ := loop_none_frame rest
                ⟨Transport.init.nwrites, Transport.init.bursts,
                 Transport.init.appends ++ [(0, bs.length)]⟩ ⟨q.sreg, bs⟩
              rw [hpstep, fn] at hle
              simp at hle
              rw [hfstep, hpstep, fb]
              simp only [Transport_init_nwrites, Transport_init_bursts, Transport_init_appends, List.nil_append, List.singleton_append]
              obtain ⟨ri, bi⟩ := ih
                ⟨tr.nwrites, tr.bursts, tr.appends ++ [(0, bs.length)]⟩
                ⟨q.sreg, bs⟩ k (by simpa using hlt) (by simp; omega)
              refine ⟨ri, ?_⟩
              rw [bi]
            · by_cases hth : 28 ≤ ctrl.data.length + bs.length
              · -- append hits the threshold: proactive flush writes
                have hpstep : t4ka3_write_reg_array_loop none Transport.init ctrl (q :: rest)
                    = t4ka3_write_reg_array_loop none
                        ⟨Transport.init.nwrites + 1,
                         Transport.init.bursts ++ [⟨ctrl.addr, ctrl.data ++ bs⟩],
                         Transport.init.appends ++ [(ctrl.data.length, bs.length)]⟩
                        ⟨ctrl.addr, []⟩ rest := by
                  rw [loop_cons_write_consec none Transport.init ctrl rest hterm hdelay hc,
                    buf_write_flush none Transport.init ctrl hv hd hth]
                  simp
                obtain ⟨fb, fn, fr⟩ := loop_none_frame rest
                  ⟨Transport.init.nwrites + 1,
                   Transport.init.bursts ++ [⟨ctrl.addr, ctrl.data ++ bs⟩],
                   Transport.init.appends ++ [(ctrl.data.length, bs.length)]⟩
                  ⟨ctrl.addr, []⟩
                rw [hpstep, fn] at hle
                simp at hle
                rw [hpstep, fb]
                simp only [Transport_init_nwrites, Transport_init_bursts, Transport_init_appends, List.nil_append, List.singleton_append]
                by_cases hk : k = tr.nwrites + 1
                · have hflt : (__t4ka3_buf_reg_array (some k) tr ctrl q).2.2 = -5 := by
                    rw [buf_write_flush (some k) tr ctrl hv hd hth]
                    simp [hk]
                  have hfbu : (__t4ka3_buf_reg_array (some k) tr ctrl q).1.bursts
                      = tr.bursts ++ [⟨ctrl.addr, ctrl.data ++ bs⟩] := by
                    rw [buf_write_flush (some k) tr ctrl hv hd hth]
                  have hnz : ¬ (__t4ka3_buf_reg_array (some k) tr ctrl q).2.2 = 0 := by
                    rw [hflt]
                    decide
                  rw [loop_cons_write_consec (some k) tr ctrl rest hterm hdelay hc,
                    if_neg hnz]
                  have hk1 : k - tr.nwrites = 1 := by omega
                  refine ⟨hflt, ?_⟩
                  rw [hfbu, hk1]
                  simp
                · have hnf : ¬ ((some k : Option Nat) = some (tr.nwrites + 1)) := by
                    simp only [Option.some.injEq]
                    omega
                  have hfok : (__t4ka3_buf_reg_array (some k) tr ctrl q).2.2 = 0 := by
                    rw [buf_write_flush (some k) tr ctrl hv hd hth, if_neg hnf]
                  have hktr : (__t4ka3_buf_reg_array (some k) tr ctrl q).1
                      = ⟨tr.nwrites + 1, tr.bursts ++ [⟨ctrl.addr, ctrl.data ++ bs⟩],
                         tr.appends ++ [(ctrl.data.length, bs.length)]⟩ := by
                    rw [buf_write_flush (some k) tr ctrl hv hd hth]
                  have hkc : (__t4ka3_buf_reg_array (some k) tr ctrl q).2.1
                      = ⟨ctrl.addr, []⟩ := by
                    rw [buf_write_flush (some k) tr ctrl hv hd hth]
                  rw [loop_cons_write_consec (some k) tr ctrl rest hterm hdelay hc,
                    if_pos hfok, hktr, hkc]
                  obtain ⟨ri, bi⟩ := ih
                    ⟨tr.nwrites + 1, tr.bursts ++ [⟨ctrl.addr, ctrl.data ++ bs⟩],
                     tr.appends ++ [(ctrl.data.length, bs.length)]⟩
                    ⟨ctrl.addr, []⟩ k (by simp; omega) (by simp; omega)
                  refine ⟨ri, ?_⟩
                  rw [bi, take_cons_sub _ _ k tr.nwrites hlt]
                  simp
              · -- small append: no write at this step
                push_neg at hth
                have hsm : ctrl.data.length + bs.length ≤ 27 := by omega
                have hpstep : t4ka3_write_reg_array_loop none Transport.init ctrl (q :: rest)
                    = t4ka3_write_reg_array_loop none
                        ⟨Transport.init.nwrites, Transport.init.bursts,
                         Transport.init.appends ++ [(ctrl.data.length, bs.length)]⟩
                        ⟨ctrl.addr, ctrl.data ++ bs⟩ rest := by
                  rw [loop_cons_write_consec none Transport.init ctrl rest hterm hdelay hc,
                    buf_write_small none Transport.init ctrl hv hd hsm]
                  simp only [if_pos rfl, eq_self_iff_true, if_true]
                have hfstep : t4ka3_write_reg_array_loop (some k) tr ctrl (q :: rest)
                    = t4ka3_write_reg_array_loop (some k)
                        ⟨tr.nwrites, tr.bursts,
                         tr.appends ++ [(ctrl.data.length, bs.length)]⟩
                        ⟨ctrl.addr, ctrl.data ++ bs⟩ rest := by
                  rw [loop_cons_write_consec (some k) tr ctrl rest hterm hdelay hc,
                    buf_write_small (some k) tr ctrl hv hd hsm]
                  simp only [if_pos rfl, eq_self_iff_true, if_true]
                obtain ⟨fb, fn, fr⟩ := loop_none_frame rest
                  ⟨Transport.init.nwrites, Transport.init.bursts,
                   Transport.init.appends ++ [(ctrl.data.length, bs.length)]⟩
                  ⟨ctrl.addr, ctrl.data ++ bs⟩
                rw [hpstep, fn] at hle
                simp at hle
                rw [hfstep, hpstep, fb]
                simp only [Transport_init_nwrites, Transport_init_bursts, Transport_init_appends, List.nil_append, List.singleton_append]
                obtain ⟨ri, bi⟩ := ih
                  ⟨tr.nwrites, tr.bursts,
                   tr.appends ++ [(ctrl.data.length, bs.length)]⟩
                  ⟨ctrl.addr, ctrl.data ++ bs⟩ k (by simpa using hlt) (by simp; omega)
                refine ⟨ri, ?_⟩
                rw [bi]
        · -- gap: flush the buffer first (the buffer is necessarily non-empty)
          have hd : ctrl.data ≠ [] := by
            intro h0
            apply hc
            simp [__t4ka3_write_reg_is_consecutive, h0]
          by_cases hk : k = tr.nwrites + 1
          · -- the gap flush is the k-th write and fails
            have hflt : (__t4ka3_flush_reg_array (some k) tr ctrl).2.2 = -5 := by
              rw [flush_some (some k) tr ctrl hd]
              simp [hk]
            have hfbu : (__t4ka3_flush_reg_array (some k) tr ctrl).1.bursts
                = tr.bursts ++ [⟨ctrl.addr, ctrl.data⟩] := by
              rw [flush_some (some k) tr ctrl hd]
            have hnz : ¬ (__t4ka3_flush_reg_array (some k) tr ctrl).2.2 = 0 := by
              rw [hflt]
              decide
            rw [loop_cons_write_gap (some k) tr ctrl rest hterm hdelay hc, if_neg hnz]
            -- the pure run's first burst is the flushed buffer
            have hpb : ∃ X, (t4ka3_write_reg_array_loop none Transport.init ctrl
                (q :: rest)).1.bursts = ⟨ctrl.addr, ctrl.data⟩ :: X := by
              rw [loop_cons_write_gap none Transport.init ctrl rest hterm hdelay hc,
                flush_some_none Transport.init ctrl hd]
              simp only [Transport_init_nwrites, Transport_init_bursts, Transport_init_appends, List.nil_append, List.singleton_append]
              cases hv : t4ka3_val_bytes q with
              | none =>
                rw [buf_invalid none _ _ hv]
                norm_num
              | some bs =>
                obtain ⟨hb1, hb2⟩ := val_bytes_length' hv
                rw [buf_write_fresh none _ _ hv rfl hb2]
                simp only [if_pos rfl, eq_self_iff_true, if_true]
                obtain ⟨fb, _, _⟩ := loop_none_frame rest
                  ⟨1, [⟨ctrl.addr, ctrl.data⟩], [] ++ [(0, bs.length)]⟩ ⟨q.sreg, bs⟩
                rw [fb]
                exact ⟨_, rfl⟩
            obtain ⟨X, hX⟩ := hpb
            have hk1 : k - tr.nwrites = 1 := by omega
            refine ⟨hflt, ?_⟩
            rw [hfbu, hX, hk1]
            simp
          · -- the gap flush succeeds; the fault comes later
            have hnf : ¬ ((some k : Option Nat) = some (tr.nwrites + 1)) := by
              simp only [Option.some.injEq]
              omega
            have hfok : (__t4ka3_flush_reg_array (some k) tr ctrl).2.2 = 0 := by
              rw [flush_some (some k) tr ctrl hd, if_neg hnf]
            have hktr : (__t4ka3_flush_reg_array (some k) tr ctrl).1
                = ⟨tr.nwrites + 1, tr.bursts ++ [⟨ctrl.addr, ctrl.data⟩],
                   tr.appends⟩ := by
              rw [flush_some (some k) tr ctrl hd]
            have hkc : (__t4ka3_flush_reg_array (some k) tr ctrl).2.1
                = ⟨ctrl.addr, []⟩ := by
              rw [flush_some (some k) tr ctrl hd]
            rw [loop_cons_write_gap (some k) tr ctrl rest hterm hdelay hc,
              if_pos hfok, hktr, hkc]
            cases hv : t4ka3_val_bytes q with
            | none =>
              -- invalid token right after the gap flush: only one pure write
              have hpw : (t4ka3_write_reg_array_loop none Transport.init ctrl
                  (q :: rest)).1.nwrites = 1 := by
                rw [loop_cons_write_gap none Transport.init ctrl rest hterm hdelay hc,
                  flush_some_none Transport.init ctrl hd]
                simp only [Transport_init_nwrites, Transport_init_bursts, Transport_init_appends, List.nil_append, List.singleton_append]
                rw [buf_invalid none _ _ hv]
                norm_num
              rw [hpw] at hle
              exact absurd hle (by omega)
            | some bs =>
              obtain ⟨hb1, hb2⟩ := val_bytes_length' hv
              have hpstep : t4ka3_write_reg_array_loop none Transport.init ctrl (q :: rest)
                  = t4ka3_write_reg_array_loop none
                      ⟨1, [⟨ctrl.addr, ctrl.data⟩], [(0, bs.length)]⟩
                      ⟨q.sreg, bs⟩ rest := by
                rw [loop_cons_write_gap none Transport.init ctrl rest hterm hdelay hc,
                  flush_some_none Transport.init ctrl hd]
                simp only [Transport_init_nwrites, Transport_init_bursts, Transport_init_appends, List.nil_append, List.singleton_append]
                rw [buf_write_fresh none _ _ hv rfl hb2]
                simp
              obtain ⟨fb, fn, fr⟩ := loop_none_frame rest
                ⟨1, [⟨ctrl.addr, ctrl.data⟩], [(0, bs.length)]⟩ ⟨q.sreg, bs⟩
              rw [hpstep, fn] at hle
              simp at hle
              rw [hpstep, fb]
              simp only [List.singleton_append]
              have hbfr : (__t4ka3_buf_reg_array (some k)
                  ⟨tr.nwrites + 1, tr.bursts ++ [⟨ctrl.addr, ctrl.data⟩], tr.appends⟩
                  ⟨ctrl.addr, []⟩ q)
                  = (⟨tr.nwrites + 1, tr.bursts ++ [⟨ctrl.addr, ctrl.data⟩],
                      tr.appends ++ [(0, bs.length)]⟩, ⟨q.sreg, bs⟩, 0) := by
                rw [buf_write_fresh (some k) _ _ hv rfl hb2]
              rw [hbfr]
              simp only [if_pos rfl, eq_self_iff_true, if_true]
              obtain ⟨ri, bi⟩ := ih
                ⟨tr.nwrites + 1, tr.bursts ++ [⟨ctrl.addr, ctrl.data⟩],
                 tr.appends ++ [(0, bs.length)]⟩
                ⟨q.sreg, bs⟩ k (by simp; omega) (by simp; omega)
            
              refine ⟨ri, ?_⟩
              rw [bi, take_cons_sub _ _ k tr.nwrites hlt]
              simp

/-- Every transport write hands over exactly one burst, so the write counter
always equals the number of bursts. -/
lemma flush_preserves_nb (failK : Option Nat) (tr : Transport)
    (ctrl : t4ka3_write_ctrl) (h : tr.nwrites = tr.bursts.length) :
    (__t4ka3_flush_reg_array failK tr ctrl).1.nwrites
      = (__t4ka3_flush_reg_array failK tr ctrl).1.bursts.length := by
  by_cases hd : ctrl.data = []
  · rw [flush_nil failK tr ctrl hd]
    exact h
  · rw [flush_some failK tr ctrl hd]
    simp [h]

lemma buf_preserves_nb (failK : Option Nat) (tr : Transport)
    (ctrl : t4ka3_write_ctrl) (r : t4ka3_reg)
    (h : tr.nwrites = tr.bursts.length) :
    (__t4ka3_buf_reg_array failK tr ctrl r).1.nwrites
      = (__t4ka3_buf_reg_array failK tr ctrl r).1.bursts.length := by
  cases hv : t4ka3_val_bytes r with
  | none =>
    rw [buf_invalid failK tr ctrl hv]
    exact h
  | some bs =>
    obtain ⟨hb1, hb2⟩ := val_bytes_length' hv
    by_cases hd : ctrl.data = []
    · rw [buf_write_fresh failK tr ctrl hv hd hb2]
      exact h
    · by_cases hth : 28 ≤ ctrl.data.length + bs.length
      · rw [buf_write_flush failK tr ctrl hv hd hth]
        simp [h]
      · push_neg at hth
        rw [buf_write_small failK tr ctrl hv hd (by omega)]
        exact h

lemma loop_nwrites_eq_bursts (P : List t4ka3_reg) :
    ∀ (failK : Option Nat) (tr : Transport) (ctrl : t4ka3_write_ctrl),
    tr.nwrites = tr.bursts.length →
    (t4ka3_write_reg_array_loop failK tr ctrl P).1.nwrites
      = (t4ka3_write_reg_array_loop failK tr ctrl P).1.bursts.length := by
  induction P with
  | nil =>
    intro failK tr ctrl h
    rw [loop_nil]
    exact flush_preserves_nb failK tr ctrl h
  | cons q rest ih =>
    intro failK tr ctrl h
    by_cases hterm : q.type = T4KA3_TOK_TERM
    · rw [loop_cons_term failK tr ctrl rest hterm, loop_nil]
      exact flush_preserves_nb failK tr ctrl h
    · by_cases hdelay : q.type &&& T4KA3_TOK_MASK = T4KA3_TOK_DELAY
      · rw [loop_cons_delay failK tr ctrl rest hterm hdelay]
        by_cases hr : (__t4ka3_flush_reg_array failK tr ctrl).2.2 = 0
        · rw [if_pos hr]
          exact ih failK _ _ (flush_preserves_nb failK tr ctrl h)
        · rw [if_neg hr]
          exact flush_preserves_nb failK tr ctrl h
      · by_cases hc : __t4ka3_write_reg_is_consecutive ctrl q = true
        · rw [loop_cons_write_consec failK tr ctrl rest hterm hdelay hc]
          by_cases hr : (__t4ka3_buf_reg_array failK tr ctrl q).2.2 = 0
          · rw [if_pos hr]
            exact ih failK _ _ (buf_preserves_nb failK tr ctrl q h)
          · rw [if_neg hr]
            exact buf_preserves_nb failK tr ctrl q h
        · rw [loop_cons_write_gap failK tr ctrl rest hterm hdelay hc]
          by_cases hr : (__t4ka3_flush_reg_array failK tr ctrl).2.2 = 0
          · rw [if_pos hr]
            have h1 := flush_preserves_nb failK tr ctrl h
            by_cases hr2 : (__t4ka3_buf_reg_array failK
                (__t4ka3_flush_reg_array failK tr ctrl).1
                (__t4ka3_flush_reg_array failK tr ctrl).2.1 q).2.2 = 0
            · rw [if_pos hr2]
              exact ih failK _ _ (buf_preserves_nb failK _ _ q h1)
            · rw [if_neg hr2]
              exact buf_preserves_nb failK _ _ q h1
          · rw [if_neg hr]
            exact flush_preserves_nb failK tr ctrl h

/-- Claim C2: injecting a fault at the k-th transport write of a register
program makes `t4ka3_write_reg_array` return -EIO immediately after that
write; exactly the bursts fully formed before the fault plus the k-th
attempted burst are handed to the transport (the first k bursts of the
fault-free run, in order — nothing is rolled back and no later value byte is
sent). -/
theorem C2_fault_stops_after_k_bursts :
    ∀ (P : List t4ka3_reg) (k : Nat),
      1 ≤ k →
      k ≤ (t4ka3_write_reg_array none P).1.bursts.length →
      (t4ka3_write_reg_array (some k) P).2 = -5 ∧
      (t4ka3_write_reg_array (some k) P).1.bursts
        = ((t4ka3_write_reg_array none P).1.bursts).take k := by
  intro P k h1 h2
  have hnb : (t4ka3_write_reg_array none P).1.nwrites
      = (t4ka3_write_reg_array none P).1.bursts.length :=
    loop_nwrites_eq_bursts P none Transport.init ⟨0, []⟩ rfl
  have hmain := loop_fault P Transport.init ⟨0, []⟩ k (by simpa using h1)
    (by
      rw [t4ka3_write_reg_array] at hnb h2
      simp [hnb]
      omega)
  rw [t4ka3_write_reg_array, t4ka3_write_reg_array]
  simpa using hmain

/-- Witness for C2: faulting the second write of a two-burst program yields
both attempted bursts and -EIO. -/
theorem C2_fault_stops_after_k_bursts_witness :
    (t4ka3_write_reg_array (some 2)
      [⟨T4KA3_8BIT, 0x100, 0x11⟩, ⟨T4KA3_8BIT, 0x200, 0x22⟩, t4ka3_term]).2 = -5 ∧
    (t4ka3_write_reg_array (some 2)
      [⟨T4KA3_8BIT, 0x100, 0x11⟩, ⟨T4KA3_8BIT, 0x200, 0x22⟩, t4ka3_term]).1.bursts
      = ((t4ka3_write_reg_array none
          [⟨T4KA3_8BIT, 0x100, 0x11⟩, ⟨T4KA3_8BIT, 0x200, 0x22⟩,
           t4ka3_term]).1.bursts).take 2 :=
  C2_fault_stops_after_k_bursts
    [⟨T4KA3_8BIT, 0x100, 0x11⟩, ⟨T4KA3_8BIT, 0x200, 0x22⟩, t4ka3_term] 2
    (by decide) (by decide)

/-! ## Buffer bounds (claim C9) -/

lemma flush_appends (failK : Option Nat) (tr : Transport)
    (ctrl : t4ka3_write_ctrl) :
    (__t4ka3_flush_reg_array failK tr ctrl).1.appends = tr.appends := by
  by_cases hd : ctrl.data = []
  · rw [flush_nil failK tr ctrl hd]
  · rw [flush_some failK tr ctrl hd]

lemma flush_ctrl_len (failK : Option Nat) (tr : Transport)
    (ctrl : t4ka3_write_ctrl) :
    (__t4ka3_flush_reg_array failK tr ctrl).2.1.data.length
      ≤ ctrl.data.length := by
  by_cases hd : ctrl.data = []
  · rw [flush_nil failK tr ctrl hd]
  · rw [flush_some failK tr ctrl hd]
    simp

/-- Every buffer append starts at the current index (at most 27 thanks to the
proactive flush), stores at most two bytes, and leaves the index at most 27
again. -/
lemma buf_appends_spec (failK : Option Nat) (tr : Transport)
    (ctrl : t4ka3_write_ctrl) (r : t4ka3_reg)
    (hlen : ctrl.data.length ≤ 27) :
    ((__t4ka3_buf_reg_array failK tr ctrl r).1.appends = tr.appends ∨
      ∃ n, (__t4ka3_buf_reg_array failK tr ctrl r).1.appends
          = tr.appends ++ [(ctrl.data.length, n)] ∧ 1 ≤ n ∧ n ≤ 2) ∧
    (__t4ka3_buf_reg_array failK tr ctrl r).2.1.data.length ≤ 27 := by
  cases hv : t4ka3_val_bytes r with
  | none =>
    rw [buf_invalid failK tr ctrl hv]
    exact ⟨Or.inl rfl, hlen⟩
  | some bs =>
    obtain ⟨hb1, hb2⟩ := val_bytes_length' hv
    by_cases hd : ctrl.data = []
    · rw [buf_write_fresh failK tr ctrl hv hd hb2]
      refine ⟨Or.inr ⟨bs.length, by simp [hd], hb1, hb2⟩, ?_⟩
      simp only
      omega
    · by_cases hth : 28 ≤ ctrl.data.length + bs.length
      · rw [buf_write_flush failK tr ctrl hv hd hth]
        exact ⟨Or.inr ⟨bs.length, rfl, hb1, hb2⟩, by simp⟩
      · push_neg at hth
        rw [buf_write_small failK tr ctrl hv hd (by omega)]
        refine ⟨Or.inr ⟨bs.length, rfl, hb1, hb2⟩, ?_⟩
        simp only [List.length_append]
        omega

/-- Appends-bound invariant for the whole loop. -/
lemma loop_appends_inv (P : List t4ka3_reg) :
    ∀ (failK : Option Nat) (tr : Transport) (ctrl : t4ka3_write_ctrl),
    ctrl.data.length ≤ 27 →
    (∀ p ∈ tr.appends, p.1 ≤ 27 ∧ p.2 ≤ 2 ∧ p.1 + p.2 ≤ 29) →
    ∀ p ∈ (t4ka3_write_reg_array_loop failK tr ctrl P).1.appends,
      p.1 ≤ 27 ∧ p.2 ≤ 2 ∧ p.1 + p.2 ≤ 29 := by
  have hbufstep : ∀ (failK : Option Nat) (tr : Transport)
      (ctrl : t4ka3_write_ctrl) (q : t4ka3_reg),
      ctrl.data.length ≤ 27 →
      (∀ p ∈ tr.appends, p.1 ≤ 27 ∧ p.2 ≤ 2 ∧ p.1 + p.2 ≤ 29) →
      (∀ p ∈ (__t4ka3_buf_reg_array failK tr ctrl q).1.appends,
        p.1 ≤ 27 ∧ p.2 ≤ 2 ∧ p.1 + p.2 ≤ 29) ∧
      (__t4ka3_buf_reg_array failK tr ctrl q).2.1.data.length ≤ 27 := by
    intro failK tr ctrl q hlen htr
    obtain ⟨hap, hct⟩ := buf_appends_spec failK tr ctrl q hlen
    refine ⟨?_, hct⟩
    rcases hap with hap | ⟨n, hap, hn1, hn2⟩
    · rw [hap]
      exact htr
    · rw [hap]
      intro p hp
      rcases List.mem_append.mp hp with hp | hp
      · exact htr p hp
      · rcases List.mem_singleton.mp hp with rfl
        exact ⟨hlen, hn2, by omega⟩
  induction P with
  | nil =>
    intro failK tr ctrl hlen htr p hp
    rw [loop_nil, flush_appends] at hp
    exact htr p hp
  | cons q rest ih =>
    intro failK tr ctrl hlen htr p hp
    by_cases hterm : q.type = T4KA3_TOK_TERM
    · rw [loop_cons_term failK tr ctrl rest hterm, loop_nil, flush_appends] at hp
      exact htr p hp
    · by_cases hdelay : q.type &&& T4KA3_TOK_MASK = T4KA3_TOK_DELAY
      · rw [loop_cons_delay failK tr ctrl rest hterm hdelay] at hp
        by_cases hr : (__t4ka3_flush_reg_array failK tr ctrl).2.2 = 0
        · rw [if_pos hr] at hp
          refine ih failK _ _ ?_ ?_ p hp
          · exact le_trans (flush_ctrl_len failK tr ctrl) hlen
          · rw [flush_appends]
            exact htr
        · rw [if_neg hr] at hp
          rw [flush_appends] at hp
          exact htr p hp
      · by_cases hc : __t4ka3_write_reg_is_consecutive ctrl q = true
        · rw [loop_cons_write_consec failK tr ctrl rest hterm hdelay hc] at hp
          obtain ⟨hap, hct⟩ := hbufstep failK tr ctrl q hlen htr
          by_cases hr : (__t4ka3_buf_reg_array failK tr ctrl q).2.2 = 0
          · rw [if_pos hr] at hp
            exact ih failK _ _ hct hap p hp
          · rw [if_neg hr] at hp
            exact hap p hp
        · rw [loop_cons_write_gap failK tr ctrl rest hterm hdelay hc] at hp
          by_cases hr : (__t4ka3_flush_reg_array failK tr ctrl).2.2 = 0
          · rw [if_pos hr] at hp
            have hlen1 : (__t4ka3_flush_reg_array failK tr ctrl).2.1.data.length ≤ 27 :=
              le_trans (flush_ctrl_len failK tr ctrl) hlen
            have htr1 : ∀ p ∈ (__t4ka3_flush_reg_array failK tr ctrl).1.appends,
                p.1 ≤ 27 ∧ p.2 ≤ 2 ∧ p.1 + p.2 ≤ 29 := by
              rw [flush_appends]
              exact htr
            obtain ⟨hap, hct⟩ := hbufstep failK
              (__t4ka3_flush_reg_array failK tr ctrl).1
              (__t4ka3_flush_reg_array failK tr ctrl).2.1 q hlen1 htr1
            by_cases hr2 : (__t4ka3_buf_reg_array failK
                (__t4ka3_flush_reg_array failK tr ctrl).1
                (__t4ka3_flush_reg_array failK tr ctrl).2.1 q).2.2 = 0
            · rw [if_pos hr2] at hp
              exact ih failK _ _ hct hap p hp
            · rw [if_neg hr2] at hp
              exact hap p hp
          · rw [if_neg hr] at hp
            rw [flush_appends] at hp
            exact htr p hp

/-- Claim C9: for every register program (and any injected fault), every
append into the coalesce buffer starts at index at most 27 and stores at most
two bytes, ending at most at index 29 — so no append ever touches
`buffer.data[30]` or beyond, and the index never exceeds 29. -/
theorem C9_coalesce_buffer_bounds :
    ∀ (failK : Option Nat) (P : List t4ka3_reg) (s n : Nat),
      (s, n) ∈ (t4ka3_write_reg_array failK P).1.appends →
      s ≤ 27 ∧ n ≤ 2 ∧ s + n ≤ 29 := by
  intro failK P s n hmem
  exact loop_appends_inv P failK Transport.init ⟨0, []⟩ (by simp) (by simp)
    (s, n) hmem

/-- Witness for C9 at a concrete program. -/
theorem C9_coalesce_buffer_bounds_witness :
    (0 : Nat) ≤ 27 ∧ (2 : Nat) ≤ 2 ∧ (0 : Nat) + 2 ≤ 29 :=
  C9_coalesce_buffer_bounds none [⟨T4KA3_16BIT, 0x300, 0xBEEF⟩, t4ka3_term]
    0 2 (by decide)
/-! ## Exposure/gain controller (`__t4ka3_set_exposure`, t4ka3.h constants) -/

def T4KA3_COARSE_INTEGRATION_TIME_MIN : Nat := 1
def T4KA3_COARSE_INTEGRATION_TIME_MARGIN : Nat := 6
def T4KA3_MAX_EXPOSURE_SUPPORTED : Nat :=
  0xffff - T4KA3_COARSE_INTEGRATION_TIME_MARGIN
def T4KA3_MIN_GLOBAL_GAIN_SUPPORTED : Nat := 0x0080
def T4KA3_MAX_GLOBAL_GAIN_SUPPORTED : Nat := 0x07ff
def T4KA3_LINES_PER_FRAME : Nat := 2492
def T4KA3_REG_IMG_ORIENTATION : Nat := 0x0101
def T4KA3_REG_COARSE_INTEGRATION_TIME : Nat := 0x0202
def T4KA3_REG_DIGGAIN_GREEN_R : Nat := 0x020e
def T4KA3_REG_DIGGAIN_RED : Nat := 0x0210
def T4KA3_REG_DIGGAIN_BLUE : Nat := 0x0212
def T4KA3_REG_DIGGAIN_GREEN_B : Nat := 0x0214
def T4KA3_REG_GLOBAL_GAIN : Nat := 0x0234
def T4KA3_REG_FRAME_LENGTH_LINES : Nat := 0x0340
def T4KA3_REG_TEST_PATTERN_MODE : Nat := 0x0601

/-- `clamp_t(u16, x, lo, hi)`. -/
def clamp_t (x lo hi : Nat) : Nat := min (max x lo) hi

/-- State of the modelled CCI register bus: single-register writes attempted
so far (count and (register, value) trace). -/
structure CciBus where
  nwrites : Nat
  writes : List (Nat × Nat)
deriving DecidableEq

def CciBus.init : CciBus := ⟨0, []⟩

/-- `cci_write` with fault injection: register write number n (1-based) fails
with -EIO exactly when `failK = some n`; the attempt is recorded either way. -/
def cci_write (failK : Option Nat) (bus : CciBus) (reg val : Nat) :
    CciBus × Int :=
  (⟨bus.nwrites + 1, bus.writes ++ [(reg, val)]⟩,
   if failK = some (bus.nwrites + 1) then -5 else 0)

/-- The cached exposure fields of struct t4ka3_device. -/
structure ExposureState where
  coarse_itg : Nat
  gain : Nat
  digital_gain : Nat
deriving DecidableEq

/-- `__t4ka3_set_exposure` (first revision): clamp coarse integration time
and analog gain, raise frame-length-lines when the margin demands it, then
write the seven registers in source order, aborting on the first failing
write; the cached state is updated only after all writes succeeded.
`lines_per_frame` is a u16 in C, hence the mod 65536. -/
def __t4ka3_set_exposure (failK : Option Nat) (st : ExposureState)
    (coarse_itg gain digitalgain : Nat) : CciBus × ExposureState × Int :=
  let coarse := clamp_t coarse_itg T4KA3_COARSE_INTEGRATION_TIME_MIN
    T4KA3_MAX_EXPOSURE_SUPPORTED
  let g := clamp_t gain T4KA3_MIN_GLOBAL_GAIN_SUPPORTED
    T4KA3_MAX_GLOBAL_GAIN_SUPPORTED
  let lines_per_frame :=
    if T4KA3_LINES_PER_FRAME - T4KA3_COARSE_INTEGRATION_TIME_MARGIN < coarse
    then (coarse + T4KA3_COARSE_INTEGRATION_TIME_MARGIN) % 65536
    else T4KA3_LINES_PER_FRAME
  let s1 := cci_write failK CciBus.init T4KA3_REG_FRAME_LENGTH_LINES lines_per_frame
  if s1.2 ≠ 0 then (s1.1, st, s1.2) else
  let s2 := cci_write failK s1.1 T4KA3_REG_COARSE_INTEGRATION_TIME coarse
  if s2.2 ≠ 0 then (s2.1, st, s2.2) else
  let s3 := cci_write failK s2.1 T4KA3_REG_GLOBAL_GAIN g
  if s3.2 ≠ 0 then (s3.1, st, s3.2) else
  let s4 := cci_write failK s3.1 T4KA3_REG_DIGGAIN_GREEN_R digitalgain
  if s4.2 ≠ 0 then (s4.1, st, s4.2) else
  let s5 := cci_write failK s4.1 T4KA3_REG_DIGGAIN_RED digitalgain
  if s5.2 ≠ 0 then (s5.1, st, s5.2) else
  let s6 := cci_write failK s5.1 T4KA3_REG_DIGGAIN_BLUE digitalgain
  if s6.2 ≠ 0 then (s6.1, st, s6.2) else
  let s7 := cci_write failK s6.1 T4KA3_REG_DIGGAIN_GREEN_B digitalgain
  if s7.2 ≠ 0 then (s7.1, st, s7.2) else
  (s7.1, ⟨coarse, g, digitalgain⟩, s7.2)

/-- Claim C5: `__t4ka3_set_exposure` silently clamps coarse integration time
into [1, 0xFFFF-6] and analog gain into [0x0080, 0x07FF], then writes, in
exactly this order: frame-length-lines (coarse+6 when the clamped coarse
exceeds 2492-6, else 2492), coarse-integration-time, global gain, then the
four digital-gain channels (green-R, red, blue, green-B) with the identical
value; any single write failure aborts the remaining writes, returns the
error, and leaves earlier writes in place (no rollback) and the cached state
untouched. -/
theorem C5_set_exposure_order_clamp_and_abort :
    (∀ (st : ExposureState) (c g d : Nat),
      c < 65536 → g < 65536 → d < 65536 →
      __t4ka3_set_exposure none st c g d =
        (⟨7, [(T4KA3_REG_FRAME_LENGTH_LINES,
               if 2486 < clamp_t c 1 65529 then clamp_t c 1 65529 + 6 else 2492),
              (T4KA3_REG_COARSE_INTEGRATION_TIME, clamp_t c 1 65529),
              (T4KA3_REG_GLOBAL_GAIN, clamp_t g 128 2047),
              (T4KA3_REG_DIGGAIN_GREEN_R, d),
              (T4KA3_REG_DIGGAIN_RED, d),
              (T4KA3_REG_DIGGAIN_BLUE, d),
              (T4KA3_REG_DIGGAIN_GREEN_B, d)]⟩,
         ⟨clamp_t c 1 65529, clamp_t g 128 2047, d⟩, 0))
  ∧ (∀ (st : ExposureState) (c g d k : Nat), 1 ≤ k → k ≤ 7 →
      (__t4ka3_set_exposure (some k) st c g d).2.2 = -5 ∧
      (__t4ka3_set_exposure (some k) st c g d).1.writes
        = ((__t4ka3_set_exposure none st c g d).1.writes).take k ∧
      (__t4ka3_set_exposure (some k) st c g d).2.1 = st) := by
  constructor
  · intro st c g d hc hg hd
    have hmin : T4KA3_COARSE_INTEGRATION_TIME_MIN = 1 := rfl
    have hmax : T4KA3_MAX_EXPOSURE_SUPPORTED = 65529 := rfl
    have hgmin : T4KA3_MIN_GLOBAL_GAIN_SUPPORTED = 128 := rfl
    have hgmax : T4KA3_MAX_GLOBAL_GAIN_SUPPORTED = 2047 := rfl
    have hlpf : T4KA3_LINES_PER_FRAME - T4KA3_COARSE_INTEGRATION_TIME_MARGIN
        = 2486 := rfl
    have hcl : clamp_t c 1 65529 ≤ 65529 := min_le_right _ _
    have hmod : (clamp_t c 1 65529 + T4KA3_COARSE_INTEGRATION_TIME_MARGIN) % 65536
        = clamp_t c 1 65529 + 6 := by
      have : T4KA3_COARSE_INTEGRATION_TIME_MARGIN = 6 := rfl
      rw [this]
      exact Nat.mod_eq_of_lt (by omega)
    simp only [__t4ka3_set_exposure, cci_write, CciBus.init, hmin, hmax, hgmin,
      hgmax, hlpf, hmod]
    simp [T4KA3_LINES_PER_FRAME]
  · intro st c g d k hk1 hk7
    interval_cases k <;>
      simp [__t4ka3_set_exposure, cci_write, CciBus.init]

/-- Witness for C5: the spec's example `coarse=2490` raises
frame-length-lines to 2496 before writing coarse-integration-time 2490; and
failing the third write (global gain) aborts there. -/
theorem C5_set_exposure_order_clamp_and_abort_witness :
    (__t4ka3_set_exposure none ⟨0, 0, 0⟩ 2490 0x0100 0x0100 =
      (⟨7, [(T4KA3_REG_FRAME_LENGTH_LINES,
             if 2486 < clamp_t 2490 1 65529 then clamp_t 2490 1 65529 + 6 else 2492),
            (T4KA3_REG_COARSE_INTEGRATION_TIME, clamp_t 2490 1 65529),
            (T4KA3_REG_GLOBAL_GAIN, clamp_t 0x0100 128 2047),
            (T4KA3_REG_DIGGAIN_GREEN_R, 0x0100),
            (T4KA3_REG_DIGGAIN_RED, 0x0100),
            (T4KA3_REG_DIGGAIN_BLUE, 0x0100),
            (T4KA3_REG_DIGGAIN_GREEN_B, 0x0100)]⟩,
       ⟨clamp_t 2490 1 65529, clamp_t 0x0100 128 2047, 0x0100⟩, 0)) ∧
    ((__t4ka3_set_exposure (some 3) ⟨0, 0, 0⟩ 2490 0x0100 0x0100).2.2 = -5 ∧
     (__t4ka3_set_exposure (some 3) ⟨0, 0, 0⟩ 2490 0x0100 0x0100).1.writes
       = ((__t4ka3_set_exposure none ⟨0, 0, 0⟩ 2490 0x0100 0x0100).1.writes).take 3 ∧
     (__t4ka3_set_exposure (some 3) ⟨0, 0, 0⟩ 2490 0x0100 0x0100).2.1 = ⟨0, 0, 0⟩) :=
  ⟨C5_set_exposure_order_clamp_and_abort.1 ⟨0, 0, 0⟩ 2490 0x0100 0x0100
     (by decide) (by decide) (by decide),
   C5_set_exposure_order_clamp_and_abort.2 ⟨0, 0, 0⟩ 2490 0x0100 0x0100 3
     (by decide) (by decide)⟩

/-! ## Bayer order under flips (t4ka3_set_bayer_order, both tables) -/

def MEDIA_BUS_FMT_SBGGR10_1X10 : Nat := 0x3007
def MEDIA_BUS_FMT_SGBRG10_1X10 : Nat := 0x3009
def MEDIA_BUS_FMT_SGRBG10_1X10 : Nat := 0x300a
def MEDIA_BUS_FMT_SRGGB10_1X10 : Nat := 0x300f

/-- `t4ka3_hv_flip_bayer_order` (first revision), indexed by
`hv_flip = (vflip ? 1 : 0) + (hflip ? 2 : 0)`. -/
def t4ka3_hv_flip_bayer_order : List Nat :=
  [MEDIA_BUS_FMT_SGRBG10_1X10, MEDIA_BUS_FMT_SBGGR10_1X10,
   MEDIA_BUS_FMT_SRGGB10_1X10, MEDIA_BUS_FMT_SGBRG10_1X10]

def atomisp_bayer_order_grbg : Nat := 0
def atomisp_bayer_order_rggb : Nat := 1
def atomisp_bayer_order_bggr : Nat := 2
def atomisp_bayer_order_gbrg : Nat := 3

/-- `t4ka3_bayer_order_mapping` (third revision), used as
`t4ka3_bayer_order_mapping[vflip][hflip]`. -/
def t4ka3_bayer_order_mapping : List (List Nat) :=
  [[atomisp_bayer_order_grbg, atomisp_bayer_order_rggb],
   [atomisp_bayer_order_bggr, atomisp_bayer_order_gbrg]]

structure MbusFmt where
  width : Nat
  height : Nat
  code : Nat
deriving DecidableEq

/-- `t4ka3_set_bayer_order`: recompute fmt.code from the current flip control
values (`ctrls.vflip->val`, `ctrls.hflip->val`) through the fixed table. -/
def t4ka3_set_bayer_order (vflip hflip : Nat) (fmt : MbusFmt) : MbusFmt :=
  ⟨fmt.width, fmt.height,
   t4ka3_hv_flip_bayer_order.getD
     ((if vflip ≠ 0 then 1 else 0) + (if hflip ≠ 0 then 2 else 0)) 0⟩

/-- The four Bayer colour-filter orders. -/
inductive BayerOrder where
  | grbg
  | rggb
  | bggr
  | gbrg
deriving DecidableEq

/-- Modelled from the spec: the fixed 2x2 lookup table
(vflip=0,hflip=0)→GRBG, (0,1)→RGGB, (1,0)→BGGR, (1,1)→GBRG. -/
def spec_bayer_table : Bool → Bool → BayerOrder
  | false, false => BayerOrder.grbg
  | false, true => BayerOrder.rggb
  | true, false => BayerOrder.bggr
  | true, true => BayerOrder.gbrg

/-- The Bayer order denoted by a 10-bit raw media-bus code. -/
def mbus_code_order (c : Nat) : Option BayerOrder :=
  if c = MEDIA_BUS_FMT_SGRBG10_1X10 then some BayerOrder.grbg
  else if c = MEDIA_BUS_FMT_SRGGB10_1X10 then some BayerOrder.rggb
  else if c = MEDIA_BUS_FMT_SBGGR10_1X10 then some BayerOrder.bggr
  else if c = MEDIA_BUS_FMT_SGBRG10_1X10 then some BayerOrder.gbrg
  else none

/-- The Bayer order denoted by an atomisp_bayer_order enum value. -/
def atomisp_code_order (c : Nat) : Option BayerOrder :=
  if c = atomisp_bayer_order_grbg then some BayerOrder.grbg
  else if c = atomisp_bayer_order_rggb then some BayerOrder.rggb
  else if c = atomisp_bayer_order_bggr then some BayerOrder.bggr
  else if c = atomisp_bayer_order_gbrg then some BayerOrder.gbrg
  else none

lemma set_bayer_order_code (v h : Nat) (fmt : MbusFmt) :
    mbus_code_order (t4ka3_set_bayer_order v h fmt).code
      = some (spec_bayer_table (v != 0) (h != 0)) := by
  rcases Bool.eq_false_or_eq_true (v != 0) with hv | hv <;>
    rcases Bool.eq_false_or_eq_true (h != 0) with hh | hh <;>
    have hv' := hv <;> have hh' := hh <;>
    simp only [bne_eq_false_iff_eq, bne_iff_ne, ne_eq] at hv' hh' <;>
    simp [t4ka3_set_bayer_order, hv', hh' , mbus_code_order, spec_bayer_table, hv, hh,
      t4ka3_hv_flip_bayer_order, MEDIA_BUS_FMT_SBGGR10_1X10,
      MEDIA_BUS_FMT_SGBRG10_1X10, MEDIA_BUS_FMT_SGRBG10_1X10,
      MEDIA_BUS_FMT_SRGGB10_1X10]

/-- Claim C6: the reported Bayer order is a pure function of (vflip, hflip)
through the fixed lookup table — (0,0)→GRBG, (0,1)→RGGB, (1,0)→BGGR,
(1,1)→GBRG — recomputed from the flip control values on every call and
independent of the previously stored code; the third revision's
`t4ka3_bayer_order_mapping[vflip][hflip]` realises the same table. -/
theorem C6_bayer_order_pure_lookup :
    (∀ (vflip hflip : Nat) (fmt fmt' : MbusFmt),
      (t4ka3_set_bayer_order vflip hflip fmt).code
        = (t4ka3_set_bayer_order vflip hflip fmt').code)
  ∧ (∀ (vflip hflip : Nat) (fmt : MbusFmt),
      mbus_code_order (t4ka3_set_bayer_order vflip hflip fmt).code
        = some (spec_bayer_table (vflip != 0) (hflip != 0)))
  ∧ (∀ v h : Bool,
      atomisp_code_order
        ((t4ka3_bayer_order_mapping.getD (if v then 1 else 0) []).getD
          (if h then 1 else 0) 0)
        = some (spec_bayer_table v h)) := by
  refine ⟨?_, ?_, ?_⟩
  · intro vflip hflip fmt fmt'
    rfl
  · intro vflip hflip fmt
    exact set_bayer_order_code vflip hflip fmt
  · intro v h
    cases v <;> cases h <;> rfl

/-! ## Flip handlers while streaming (t4ka3_t_hflip / t4ka3_t_vflip) -/

def T4KA3_HFLIP_BIT : Nat := 0x1
def T4KA3_VFLIP_BIT : Nat := 0x2

/-- A register operation issued by the control paths. -/
inductive RegOp where
  | update_bits (reg mask val : Nat)
  | write (reg val : Nat)
deriving DecidableEq

/-- Cached sensor/control state seen by the control paths (first revision):
flip control values, test pattern, vblank, exposure, the active format, the
exposure control's maximum (kept by __v4l2_ctrl_modify_range), the streaming
flag and the cached orientation bits. -/
structure CtrlState where
  vflip : Nat
  hflip : Nat
  test_pattern : Nat
  vblank : Nat
  exposure : Nat
  format : MbusFmt
  exposure_max : Int
  streaming : Nat
  flip : Nat
deriving DecidableEq

/-- Recompute `format.code` from the cached flip control values. -/
def t4ka3_set_bayer_order_st (st : CtrlState) : CtrlState :=
  ⟨st.vflip, st.hflip, st.test_pattern, st.vblank, st.exposure,
   t4ka3_set_bayer_order st.vflip st.hflip st.format,
   st.exposure_max, st.streaming, st.flip⟩

/-- `t4ka3_t_hflip` (first revision): refuse with -EBUSY while streaming;
otherwise update the orientation register's hflip bit via `cci_update_bits`
(`updRet` is the environment's result), cache the bit and recompute the Bayer
order. -/
def t4ka3_t_hflip (updRet : Int) (st : CtrlState) (value : Nat) :
    CtrlState × List RegOp × Int :=
  if st.streaming ≠ 0 then (st, [], -16)
  else
    let v := if value ≠ 0 then T4KA3_HFLIP_BIT else 0
    let ops := [RegOp.update_bits T4KA3_REG_IMG_ORIENTATION T4KA3_HFLIP_BIT v]
    if updRet ≠ 0 then (st, ops, updRet)
    else
      (t4ka3_set_bayer_order_st
        ⟨st.vflip, st.hflip, st.test_pattern, st.vblank, st.exposure,
         st.format, st.exposure_max, st.streaming, v⟩, ops, 0)

/-- `t4ka3_t_vflip` (first revision), mirror of the hflip handler. -/
def t4ka3_t_vflip (updRet : Int) (st : CtrlState) (value : Nat) :
    CtrlState × List RegOp × Int :=
  if st.streaming ≠ 0 then (st, [], -16)
  else
    let v := if value ≠ 0 then T4KA3_VFLIP_BIT else 0
    let ops := [RegOp.update_bits T4KA3_REG_IMG_ORIENTATION T4KA3_VFLIP_BIT v]
    if updRet ≠ 0 then (st, ops, updRet)
    else
      (t4ka3_set_bayer_order_st
        ⟨st.vflip, st.hflip, st.test_pattern, st.vblank, st.exposure,
         st.format, st.exposure_max, st.streaming, v⟩, ops, 0)

/-- Claim C7: any flip request issued while streaming returns -EBUSY,
performs no register operation and changes nothing — neither the cached flip
state nor the reported Bayer order. -/
theorem C7_flip_while_streaming_busy :
    ∀ (updRet : Int) (st : CtrlState) (value : Nat),
      st.streaming ≠ 0 →
      t4ka3_t_hflip updRet st value = (st, [], -16) ∧
      t4ka3_t_vflip updRet st value = (st, [], -16) := by
  intro updRet st value hs
  rw [t4ka3_t_hflip, t4ka3_t_vflip]
  rw [if_pos hs, if_pos hs]
  exact ⟨rfl, rfl⟩

/-- Witness for C7 at a concrete streaming state. -/
theorem C7_flip_while_streaming_busy_witness :
    t4ka3_t_hflip 0 ⟨0, 0, 0, 0, 0, ⟨640, 480, 0⟩, 0, 1, 0⟩ 1
      = (⟨0, 0, 0, 0, 0, ⟨640, 480, 0⟩, 0, 1, 0⟩, [], -16) ∧
    t4ka3_t_vflip 0 ⟨0, 0, 0, 0, 0, ⟨640, 480, 0⟩, 0, 1, 0⟩ 1
      = (⟨0, 0, 0, 0, 0, ⟨640, 480, 0⟩, 0, 1, 0⟩, [], -16) :=
  C7_flip_while_streaming_busy 0 ⟨0, 0, 0, 0, 0, ⟨640, 480, 0⟩, 0, 1, 0⟩ 1
    (by decide)

/-! ## Streaming state machine (t4ka3_s_stream, first revision) -/

/-- An external operation attempted by t4ka3_s_stream. `write_array n` is the
n-th cci_multi_reg_write table: 0 = t4ka3_init_config, 1 = t4ka3_param_hold,
2 = the resolution's mode registers, 3 = t4ka3_param_update,
4 = t4ka3_streaming, 5 = t4ka3_suspend. `ctrl_replay` is
__v4l2_ctrl_handler_setup (restore value of all ctrls). -/
inductive StreamEv where
  | power_get
  | write_array (n : Nat)
  | ctrl_replay
  | power_put
deriving DecidableEq

/-- Results of the external calls made by t4ka3_s_stream. `ret_uninit` models
the indeterminate content of the local `int ret;`, which the C code declares
without an initialiser and returns unassigned on the already-in-state path
(`goto error_unlock; ... return ret;`). -/
structure StreamEnv where
  ret_uninit : Int
  power_get_ret : Int
  init_ret : Int
  hold_ret : Int
  mode_ret : Int
  ctrls_ret : Int
  update_ret : Int
  stream_ret : Int
  suspend_ret : Int
  power_put_ret : Int
deriving DecidableEq

/-- `t4ka3_s_stream` (first revision). Result: (new streaming flag, return
value, trace of attempted external operations). Faithful to the C control
flow: the `error_powerdown` label executes `ret = pm_runtime_put(...)` and
falls through to `return ret`, so every failure that reaches it returns
`power_put_ret`; the `streaming == enable` path returns the uninitialised
`ret`. -/
def t4ka3_s_stream (env : StreamEnv) (streaming enable : Nat) :
    Nat × Int × List StreamEv :=
  if streaming = enable then (streaming, env.ret_uninit, [])
  else if enable ≠ 0 then
    if env.power_get_ret ≠ 0 then
      (streaming, env.power_get_ret, [StreamEv.power_get])
    else if env.init_ret ≠ 0 then
      (streaming, env.power_put_ret,
       [StreamEv.power_get, StreamEv.write_array 0, StreamEv.power_put])
    else if env.hold_ret ≠ 0 then
      (streaming, env.power_put_ret,
       [StreamEv.power_get, StreamEv.write_array 0, StreamEv.write_array 1,
        StreamEv.power_put])
    else if env.mode_ret ≠ 0 then
      (streaming, env.power_put_ret,
       [StreamEv.power_get, StreamEv.write_array 0, StreamEv.write_array 1,
        StreamEv.write_array 2, StreamEv.power_put])
    else if env.ctrls_ret ≠ 0 then
      (streaming, env.power_put_ret,
       [StreamEv.power_get, StreamEv.write_array 0, StreamEv.write_array 1,
        StreamEv.write_array 2, StreamEv.ctrl_replay, StreamEv.power_put])
    else if env.update_ret ≠ 0 then
      (streaming, env.power_put_ret,
       [StreamEv.power_get, StreamEv.write_array 0, StreamEv.write_array 1,
        StreamEv.write_array 2, StreamEv.ctrl_replay, StreamEv.write_array 3,
        StreamEv.power_put])
    else if env.stream_ret ≠ 0 then
      (streaming, env.power_put_ret,
       [StreamEv.power_get, StreamEv.write_array 0, StreamEv.write_array 1,
        StreamEv.write_array 2, StreamEv.ctrl_replay, StreamEv.write_array 3,
        StreamEv.write_array 4, StreamEv.power_put])
    else
      (1, env.stream_ret,
       [StreamEv.power_get, StreamEv.write_array 0, StreamEv.write_array 1,
        StreamEv.write_array 2, StreamEv.ctrl_replay, StreamEv.write_array 3,
        StreamEv.write_array 4])
  else
    if env.suspend_ret ≠ 0 then
      (streaming, env.power_put_ret,
       [StreamEv.write_array 5, StreamEv.power_put])
    else if env.power_put_ret ≠ 0 then
      (streaming, env.power_put_ret,
       [StreamEv.write_array 5, StreamEv.power_put])
    else
      (0, env.power_put_ret, [StreamEv.write_array 5, StreamEv.power_put])

/-- Environment where every external call succeeds. -/
def streamEnvOk : StreamEnv := ⟨0, 0, 0, 0, 0, 0, 0, 0, 0, 0⟩

/-- Environment where the init-config write fails with -EIO and everything
else (notably pm_runtime_put) succeeds. -/
def streamEnvInitFail : StreamEnv := ⟨0, 0, -5, 0, 0, 0, 0, 0, 0, 0⟩

/-- Environment whose only non-zero value is the uninitialised `ret`. -/
def streamEnvResidue : StreamEnv := ⟨-99, 0, 0, 0, 0, 0, 0, 0, 0, 0⟩

/-- Claim C3 (code slip): enabling from stopped with the init-config write
failing (-EIO) does power down and leaves streaming off, but the function
returns 0 — `error_powerdown` overwrites `ret` with `pm_runtime_put`'s
result (0 on success) before returning, so the caller sees success instead
of the write's error. -/
theorem C3_enable_failure_swallowed_by_power_put :
    t4ka3_s_stream streamEnvInitFail 0 1
      = (0, 0, [StreamEv.power_get, StreamEv.write_array 0, StreamEv.power_put])
    ∧ t4ka3_s_stream streamEnvInitFail 0 1 ≠ (0, streamEnvInitFail.init_ret,
        [StreamEv.power_get, StreamEv.write_array 0, StreamEv.power_put]) := by
  exact ⟨rfl, by decide⟩

/-- Claim C4 (code slip): requesting the state already held performs no
external operation, but returns the uninitialised local `ret` (modelled by
`ret_uninit`, here -99) rather than 0; a first enable from stopped performs
the whole sequence exactly once. -/
theorem C4_noop_returns_uninitialised_ret :
    t4ka3_s_stream streamEnvOk 0 1
      = (1, 0, [StreamEv.power_get, StreamEv.write_array 0,
          StreamEv.write_array 1, StreamEv.write_array 2, StreamEv.ctrl_replay,
          StreamEv.write_array 3, StreamEv.write_array 4])
    ∧ t4ka3_s_stream streamEnvResidue 1 1 = (1, -99, []) := by
  exact ⟨rfl, rfl⟩

/-! ## Control handling (t4ka3_s_ctrl, first revision) -/

def V4L2_CID_EXPOSURE : Nat := 0x00980911
def V4L2_CID_HFLIP : Nat := 0x00980914
def V4L2_CID_VFLIP : Nat := 0x00980915
def V4L2_CID_VBLANK : Nat := 0x009e0901
def V4L2_CID_TEST_PATTERN : Nat := 0x009f0903

/-- The control framework stores the new value in the targeted control
before invoking s_ctrl; `ctrl_store` models that store. -/
def ctrl_store (id val : Nat) (st : CtrlState) : CtrlState :=
  if id = V4L2_CID_VFLIP then
    ⟨val, st.hflip, st.test_pattern, st.vblank, st.exposure, st.format,
     st.exposure_max, st.streaming, st.flip⟩
  else if id = V4L2_CID_HFLIP then
    ⟨st.vflip, val, st.test_pattern, st.vblank, st.exposure, st.format,
     st.exposure_max, st.streaming, st.flip⟩
  else if id = V4L2_CID_TEST_PATTERN then
    ⟨st.vflip, st.hflip, val, st.vblank, st.exposure, st.format,
     st.exposure_max, st.streaming, st.flip⟩
  else if id = V4L2_CID_VBLANK then
    ⟨st.vflip, st.hflip, st.test_pattern, val, st.exposure, st.format,
     st.exposure_max, st.streaming, st.flip⟩
  else if id = V4L2_CID_EXPOSURE then
    ⟨st.vflip, st.hflip, st.test_pattern, st.vblank, val, st.format,
     st.exposure_max, st.streaming, st.flip⟩
  else st

/-- `t4ka3_update_exposure_range`: exp_max = format.height + vblank - margin;
`__v4l2_ctrl_modify_range` is external framework code, modelled from the
spec as updating the cached exposure range and returning 0. -/
def t4ka3_update_exposure_range (st : CtrlState) : CtrlState × Int :=
  (⟨st.vflip, st.hflip, st.test_pattern, st.vblank, st.exposure, st.format,
    (st.format.height : Int) + st.vblank - T4KA3_COARSE_INTEGRATION_TIME_MARGIN,
    st.streaming, st.flip⟩, 0)

/-- `t4ka3_s_ctrl` (first revision): the framework has already stored `val`
in the control; on VBLANK the exposure range is recomputed first (the
modelled modify_range returns 0, so its early-error return does not fire);
when the device is not powered (`pm_runtime_get_if_in_use` returned 0) only
the cached Bayer order is recomputed and 0 returned; otherwise the control
is applied to the hardware, `opRet` being the environment's result for the
register operation the taken branch performs. -/
def t4ka3_s_ctrl (powered : Bool) (opRet : Int) (id val : Nat)
    (st0 : CtrlState) : CtrlState × List RegOp × Int :=
  let st := ctrl_store id val st0
  let st1 := if id = V4L2_CID_VBLANK then (t4ka3_update_exposure_range st).1
             else st
  if powered = false then (t4ka3_set_bayer_order_st st1, [], 0)
  else if id = V4L2_CID_TEST_PATTERN then
    (st1, [RegOp.write T4KA3_REG_TEST_PATTERN_MODE val], opRet)
  else if id = V4L2_CID_VFLIP then t4ka3_t_vflip opRet st1 val
  else if id = V4L2_CID_HFLIP then t4ka3_t_hflip opRet st1 val
  else if id = V4L2_CID_VBLANK then
    (st1, [RegOp.write T4KA3_REG_FRAME_LENGTH_LINES
            (st1.format.height + val)], opRet)
  else if id = V4L2_CID_EXPOSURE then
    (st1, [RegOp.write T4KA3_REG_COARSE_INTEGRATION_TIME val], opRet)
  else (st1, [], -22)

lemma ctrl_store_flips_or_self (id val : Nat) (st : CtrlState) :
    (ctrl_store id val st).streaming = st.streaming ∧
    (ctrl_store id val st).flip = st.flip ∧
    (ctrl_store id val st).format = st.format := by
  unfold ctrl_store
  split_ifs <;> exact ⟨rfl, rfl, rfl⟩

lemma update_exposure_range_frame (st : CtrlState) :
    ((t4ka3_update_exposure_range st).1.vflip = st.vflip ∧
     (t4ka3_update_exposure_range st).1.hflip = st.hflip) ∧
    (t4ka3_update_exposure_range st).1.streaming = st.streaming ∧
    (t4ka3_update_exposure_range st).1.flip = st.flip ∧
    (t4ka3_update_exposure_range st).1.format = st.format := by
  exact ⟨⟨rfl, rfl⟩, rfl, rfl, rfl⟩

lemma sbo_st_streaming (st : CtrlState) :
    (t4ka3_set_bayer_order_st st).streaming = st.streaming := rfl

lemma sbo_st_flip (st : CtrlState) :
    (t4ka3_set_bayer_order_st st).flip = st.flip := rfl

lemma sbo_st_code (st : CtrlState) :
    (t4ka3_set_bayer_order_st st).format.code
      = (t4ka3_set_bayer_order st.vflip st.hflip st.format).code := rfl

lemma s_ctrl_unpowered (opRet : Int) (id val : Nat) (st : CtrlState) :
    t4ka3_s_ctrl false opRet id val st
      = (t4ka3_set_bayer_order_st
          (if id = V4L2_CID_VBLANK
           then (t4ka3_update_exposure_range (ctrl_store id val st)).1
           else ctrl_store id val st), [], 0) := by
  unfold t4ka3_s_ctrl
  simp only [if_pos rfl, eq_self_iff_true, if_true]

/-- Claim C10: a control-set while unpowered issues no register operation,
returns 0, leaves the hardware-mirroring state (streaming flag, orientation
bits) untouched, and recomputes the cached Bayer order from the stored flip
control values through the spec's lookup table; the controls reach the
hardware only at stream-enable, whose successful trace contains the
control-replay step. -/
theorem C10_s_ctrl_unpowered_cached_only :
    (∀ (opRet : Int) (id val : Nat) (st : CtrlState),
      (t4ka3_s_ctrl false opRet id val st).2.1 = [] ∧
      (t4ka3_s_ctrl false opRet id val st).2.2 = 0 ∧
      (t4ka3_s_ctrl false opRet id val st).1.streaming = st.streaming ∧
      (t4ka3_s_ctrl false opRet id val st).1.flip = st.flip ∧
      mbus_code_order (t4ka3_s_ctrl false opRet id val st).1.format.code
        = some (spec_bayer_table ((ctrl_store id val st).vflip != 0)
            ((ctrl_store id val st).hflip != 0)))
  ∧ StreamEv.ctrl_replay ∈ (t4ka3_s_stream streamEnvOk 0 1).2.2 := by
  constructor
  · intro opRet id val st
    obtain ⟨hs, hf, _⟩ := ctrl_store_flips_or_self id val st
    obtain ⟨⟨huv, huh⟩, hus, huf, _⟩ :=
      update_exposure_range_frame (ctrl_store id val st)
    rw [s_ctrl_unpowered]
    by_cases hid : id = V4L2_CID_VBLANK
    · rw [if_pos hid]
      refine ⟨rfl, rfl, ?_, ?_, ?_⟩
      · exact (sbo_st_streaming _).trans (hus.trans hs)
      · exact (sbo_st_flip _).trans (huf.trans hf)
      · rw [sbo_st_code, huv, huh]
        exact set_bayer_order_code _ _ _
    · rw [if_neg hid]
      refine ⟨rfl, rfl, ?_, ?_, ?_⟩
      · exact (sbo_st_streaming _).trans hs
      · exact (sbo_st_flip _).trans hf
      · rw [sbo_st_code]
        exact set_bayer_order_code _ _ _
  · decide

/-! ## Nearest-resolution selection (third revision) -/

def T4KA3_RES_WIDTH_MAX : Nat := 3280
def T4KA3_RES_HEIGHT_MAX : Nat := 2464
def LARGEST_ALLOWED_RATIO_MISMATCH : Nat := 600
def INT_MAX : Int := 2147483647

structure t4ka3_resolution where
  width : Nat
  height : Nat
  code : Nat
deriving DecidableEq

/-- t4ka3_res = t4ka3_res_preview (four entries, all SGRBG10, N_RES = 4). -/
def t4ka3_res : List t4ka3_resolution :=
  [⟨736, 496, MEDIA_BUS_FMT_SGRBG10_1X10⟩,
   ⟨896, 736, MEDIA_BUS_FMT_SGRBG10_1X10⟩,
   ⟨1936, 1096, MEDIA_BUS_FMT_SGRBG10_1X10⟩,
   ⟨3280, 2464, MEDIA_BUS_FMT_SGRBG10_1X10⟩]

def N_RES : Nat := 4

/-- Truncation to a 32-bit unsigned value. -/
def u32 (n : Nat) : Nat := n % 4294967296

/-- Reinterpretation of a 32-bit unsigned value as a two's-complement int. -/
def toInt32 (n : Nat) : Int :=
  if n < 2147483648 then (n : Int) else (n : Int) - 4294967296

/-- `distance` (third revision). wr = (width << 13) / w and
hr = (height << 13) / h are C unsigned divisions; the aspect term is
abs(((wr << 13) / hr) - 8192) with the shift wrapping at 2^32 and the
subtraction performed in unsigned arithmetic then reinterpreted as int (the
operand of abs). -EPERM is -1. The C code divides by w without a zero
check (undefined there); Nat division by zero yields 0, which the
`wr < 8192` test rejects. -/
def distance (res : t4ka3_resolution) (w h : Nat) : Int :=
  if h = 0 then -1
  else if u32 (res.height * 8192) / h = 0 then -1
  else if u32 (res.width * 8192) / w < 8192 ∨ u32 (res.height * 8192) / h < 8192 ∨
      (LARGEST_ALLOWED_RATIO_MISMATCH : Int) <
        ((toInt32 (u32 (u32 ((u32 (res.width * 8192) / w) * 8192) /
            (u32 (res.height * 8192) / h) + (4294967296 - 8192)))).natAbs : Int)
    then -1
  else ((u32 (res.width * 8192) / w : Nat) : Int) + (u32 (res.height * 8192) / h : Nat)

/-- The loop of `nearest_resolution_index`: i is the index of the head of
the remaining list, acc = (idx, min_dist). -/
def nri_go (w h : Nat) : List t4ka3_resolution → Nat → Int × Int → Int × Int
  | [], _, acc => acc
  | res :: rest, i, acc =>
    if distance res w h = -1 then nri_go w h rest (i + 1) acc
    else if distance res w h < acc.2 then
      nri_go w h rest (i + 1) ((i : Int), distance res w h)
    else nri_go w h rest (i + 1) acc

/-- `nearest_resolution_index`: scan the catalog for the accepted entry of
least distance; -1 when every entry was rejected. -/
def nearest_resolution_index (w h : Nat) : Int :=
  (nri_go w h t4ka3_res 0 (-1, INT_MAX)).1

/-- `__t4ka3_try_mbus_fmt` (third revision): clamp over-range requests to the
sensor maximum; otherwise pick the nearest resolution, falling back to the
last (largest) catalog entry when no entry was accepted. Always returns 0. -/
def __t4ka3_try_mbus_fmt (fmt : MbusFmt) : MbusFmt × Int :=
  if T4KA3_RES_WIDTH_MAX < fmt.width ∨ T4KA3_RES_HEIGHT_MAX < fmt.height then
    (⟨T4KA3_RES_WIDTH_MAX, T4KA3_RES_HEIGHT_MAX, MEDIA_BUS_FMT_SGRBG10_1X10⟩, 0)
  else
    (⟨(t4ka3_res.getD
         (if nearest_resolution_index fmt.width fmt.height = -1 then N_RES - 1
          else (nearest_resolution_index fmt.width fmt.height).toNat)
         ⟨0, 0, 0⟩).width,
      (t4ka3_res.getD
         (if nearest_resolution_index fmt.width fmt.height = -1 then N_RES - 1
          else (nearest_resolution_index fmt.width fmt.height).toNat)
         ⟨0, 0, 0⟩).height,
      (t4ka3_res.getD
         (if nearest_resolution_index fmt.width fmt.height = -1 then N_RES - 1
          else (nearest_resolution_index fmt.width fmt.height).toNat)
         ⟨0, 0, 0⟩).code⟩, 0)

lemma distance_accept_le (res : t4ka3_resolution) (w h : Nat)
    (hacc : distance res w h ≠ -1) : w ≤ res.width ∧ h ≤ res.height := by
  unfold distance at hacc
  by_cases h0 : h = 0
  · rw [if_pos h0] at hacc
    exact absurd rfl hacc
  · rw [if_neg h0] at hacc
    by_cases hr0 : u32 (res.height * 8192) / h = 0
    · rw [if_pos hr0] at hacc
      exact absurd rfl hacc
    · rw [if_neg hr0] at hacc
      by_cases hrej : u32 (res.width * 8192) / w < 8192 ∨
          u32 (res.height * 8192) / h < 8192 ∨
          (LARGEST_ALLOWED_RATIO_MISMATCH : Int) <
            ((toInt32 (u32 (u32 ((u32 (res.width * 8192) / w) * 8192) /
                (u32 (res.height * 8192) / h) + (4294967296 - 8192)))).natAbs : Int)
      · rw [if_pos hrej] at hacc
        exact absurd rfl hacc
      · push_neg at hrej
        obtain ⟨hw8, hh8, _⟩ := hrej
        constructor
        · by_cases w0 : w = 0
          · rw [w0, Nat.div_zero] at hw8
            omega
          · have hmul : 8192 * w ≤ u32 (res.width * 8192) :=
              (Nat.le_div_iff_mul_le (by omega)).mp hw8
            have hle : u32 (res.width * 8192) ≤ res.width * 8192 := Nat.mod_le _ _
            have : 8192 * w ≤ 8192 * res.width := by
              calc 8192 * w ≤ res.width * 8192 := le_trans hmul hle
              _ = 8192 * res.width := Nat.mul_comm _ _
            exact Nat.le_of_mul_le_mul_left this (by omega)
        · have hmul : 8192 * h ≤ u32 (res.height * 8192) :=
            (Nat.le_div_iff_mul_le (by omega)).mp hh8
          have hle : u32 (res.height * 8192) ≤ res.height * 8192 := Nat.mod_le _ _
          have : 8192 * h ≤ 8192 * res.height := by
            calc 8192 * h ≤ res.height * 8192 := le_trans hmul hle
            _ = 8192 * res.height := Nat.mul_comm _ _
          exact Nat.le_of_mul_le_mul_left this (by omega)

lemma nri_go_inv (w h : Nat) (l : List t4ka3_resolution) :
    ∀ (i : Nat) (acc : Int × Int),
    (acc.1 = -1 ∨ ∃ k : Nat, acc.1 = (k : Int) ∧ k < 4 ∧
       distance (t4ka3_res.getD k ⟨0, 0, 0⟩) w h ≠ -1) →
    (∀ n : Nat, n < l.length →
       l.getD n ⟨0, 0, 0⟩ = t4ka3_res.getD (i + n) ⟨0, 0, 0⟩ ∧ i + n < 4) →
    ((nri_go w h l i acc).1 = -1 ∨ ∃ k : Nat, (nri_go w h l i acc).1 = (k : Int) ∧
       k < 4 ∧ distance (t4ka3_res.getD k ⟨0, 0, 0⟩) w h ≠ -1) := by
  induction l with
  | nil =>
    intro i acc hacc _
    simpa [nri_go] using hacc
  | cons res rest ih =>
    intro i acc hacc hl
    have hhead := hl 0 (by simp)
    have hres : res = t4ka3_res.getD i ⟨0, 0, 0⟩ := by
      have h1 : (res :: rest).getD 0 ⟨0, 0, 0⟩ = res := rfl
      have h2 : i + 0 = i := rfl
      rw [h1, h2] at hhead
      exact hhead.1
    have hi4 : i < 4 := by
      have := hhead.2
      omega
    have hrest : ∀ n : Nat, n < rest.length →
        rest.getD n ⟨0, 0, 0⟩ = t4ka3_res.getD (i + 1 + n) ⟨0, 0, 0⟩ ∧
        i + 1 + n < 4 := by
      intro n hn
      have h' := hl (n + 1) (by simp; omega)
      have h1 : (res :: rest).getD (n + 1) ⟨0, 0, 0⟩ = rest.getD n ⟨0, 0, 0⟩ := rfl
      have h2 : i + (n + 1) = i + 1 + n := by omega
      rw [h1, h2] at h'
      exact h'
    rw [nri_go]
    by_cases hd : distance res w h = -1
    · rw [if_pos hd]
      exact ih (i + 1) acc hacc hrest
    · rw [if_neg hd]
      by_cases hlt : distance res w h < acc.2
      · rw [if_pos hlt]
        refine ih (i + 1) ((i : Int), distance res w h) ?_ hrest
        right
        refine ⟨i, rfl, hi4, ?_⟩
        rw [← hres]
        exact hd
      · rw [if_neg hlt]
        exact ih (i + 1) acc hacc hrest

lemma nearest_resolution_index_spec (w h : Nat) :
    nearest_resolution_index w h = -1 ∨
    ∃ k : Nat, nearest_resolution_index w h = (k : Int) ∧ k < 4 ∧
      distance (t4ka3_res.getD k ⟨0, 0, 0⟩) w h ≠ -1 := by
  refine nri_go_inv w h t4ka3_res 0 (-1, INT_MAX) (Or.inl rfl) ?_
  intro n hn
  constructor
  · rw [Nat.zero_add]
  · have : t4ka3_res.length = 4 := rfl
    omega
lemma try_fmt_over (w h : Nat)
    (hov : T4KA3_RES_WIDTH_MAX < w ∨ T4KA3_RES_HEIGHT_MAX < h) :
    __t4ka3_try_mbus_fmt ⟨w, h, 0⟩
      = (⟨T4KA3_RES_WIDTH_MAX, T4KA3_RES_HEIGHT_MAX,
          MEDIA_BUS_FMT_SGRBG10_1X10⟩, 0) := by
  unfold __t4ka3_try_mbus_fmt
  dsimp only
  rw [if_pos hov]

lemma try_fmt_in_range (w h : Nat)
    (hov : ¬(T4KA3_RES_WIDTH_MAX < w ∨ T4KA3_RES_HEIGHT_MAX < h)) :
    __t4ka3_try_mbus_fmt ⟨w, h, 0⟩
      = (⟨(t4ka3_res.getD
             (if nearest_resolution_index w h = -1 then N_RES - 1
              else (nearest_resolution_index w h).toNat) ⟨0, 0, 0⟩).width,
          (t4ka3_res.getD
             (if nearest_resolution_index w h = -1 then N_RES - 1
              else (nearest_resolution_index w h).toNat) ⟨0, 0, 0⟩).height,
          (t4ka3_res.getD
             (if nearest_resolution_index w h = -1 then N_RES - 1
              else (nearest_resolution_index w h).toNat) ⟨0, 0, 0⟩).code⟩,
         0) := by
  unfold __t4ka3_try_mbus_fmt
  dsimp only
  rw [if_neg hov]

/-- Claim C8: the selected mode always comes from the catalog; it is never
smaller than the request in either dimension whenever some catalog entry is
at least as large as the request in both dimensions; and when no entry is
adequate the largest catalog entry (3280x2464) is returned. -/
theorem C8_nearest_selection_never_smaller :
    ∀ w h : Nat,
      ((__t4ka3_try_mbus_fmt ⟨w, h, 0⟩).1.width,
       (__t4ka3_try_mbus_fmt ⟨w, h, 0⟩).1.height)
        ∈ t4ka3_res.map (fun r => (r.width, r.height)) ∧
      ((∃ r ∈ t4ka3_res, w ≤ r.width ∧ h ≤ r.height) →
        w ≤ (__t4ka3_try_mbus_fmt ⟨w, h, 0⟩).1.width ∧
        h ≤ (__t4ka3_try_mbus_fmt ⟨w, h, 0⟩).1.height) ∧
      ((¬∃ r ∈ t4ka3_res, w ≤ r.width ∧ h ≤ r.height) →
        (__t4ka3_try_mbus_fmt ⟨w, h, 0⟩).1.width = 3280 ∧
        (__t4ka3_try_mbus_fmt ⟨w, h, 0⟩).1.height = 2464) := by
  intro w h
  by_cases hover : T4KA3_RES_WIDTH_MAX < w ∨ T4KA3_RES_HEIGHT_MAX < h
  · rw [try_fmt_over w h hover]
    have hcat : ∀ r ∈ t4ka3_res, r.width ≤ 3280 ∧ r.height ≤ 2464 := by decide
    refine ⟨by decide, ?_, fun _ => ⟨rfl, rfl⟩⟩
    rintro ⟨r, hr, hwr, hhr⟩
    exact ⟨le_trans hwr (hcat r hr).1, le_trans hhr (hcat r hr).2⟩
  · have hno := hover
    push_neg at hno
    obtain ⟨hw, hh⟩ := hno
    rcases nearest_resolution_index_spec w h with hidx | ⟨k, hik, hk4, hkd⟩
    · have hres : __t4ka3_try_mbus_fmt ⟨w, h, 0⟩
          = (⟨3280, 2464, MEDIA_BUS_FMT_SGRBG10_1X10⟩, 0) := by
        rw [try_fmt_in_range w h hover, hidx]
        decide
      rw [hres]
      exact ⟨by decide, fun _ => ⟨hw, hh⟩, fun _ => ⟨rfl, rfl⟩⟩
    · have hne : nearest_resolution_index w h ≠ -1 := by
        rw [hik]
        omega
      have htn : (nearest_resolution_index w h).toNat = k := by
        rw [hik]
        omega
      have hres : __t4ka3_try_mbus_fmt ⟨w, h, 0⟩
          = (⟨(t4ka3_res.getD k ⟨0, 0, 0⟩).width,
              (t4ka3_res.getD k ⟨0, 0, 0⟩).height,
              (t4ka3_res.getD k ⟨0, 0, 0⟩).code⟩, 0) := by
        rw [try_fmt_in_range w h hover, if_neg hne, htn]
      obtain ⟨hwle, hhle⟩ := distance_accept_le _ w h hkd
      rw [hres]
      refine ⟨?_, fun _ => ⟨hwle, hhle⟩, ?_⟩
      · interval_cases k <;> decide
      · intro hnone
        exact absurd ⟨t4ka3_res.getD k ⟨0, 0, 0⟩,
          by interval_cases k <;> decide, hwle, hhle⟩ hnone

/-- Witness for C8 at the concrete request 700x700: an adequate catalog entry
exists (896x736), and the selected mode is at least 700 in both dimensions
(every adequate entry is aspect-rejected, so the selector falls back to the
largest entry). -/
theorem C8_nearest_selection_never_smaller_witness :
    (∃ r ∈ t4ka3_res, 700 ≤ r.width ∧ 700 ≤ r.height) ∧
    700 ≤ (__t4ka3_try_mbus_fmt ⟨700, 700, 0⟩).1.width ∧
    700 ≤ (__t4ka3_try_mbus_fmt ⟨700, 700, 0⟩).1.height :=
  ⟨by decide, (C8_nearest_selection_never_smaller 700 700).2.1 (by decide)⟩
end T4ka3
